import Mathlib

/-!
# Verification of the usgs-quake-stream ingestion and deduplication pipeline

A shallow embedding, in Lean 4, of the core of the `usgs-quake-stream`
repository: the canonical-event data model (`models_v2.py`), the validator
(`parsers/base.py`), the three record parsers (`parsers/usgs_geojson.py`,
`parsers/emsc_geojson.py`, `parsers/fdsn_text.py`), the geographic helpers
(`geo.py`), the deduplicator (`deduplicator.py`), the unified-row assembly of
the dedup pipeline (`gcp/dedup/dedup_pipeline.py`), and the fetch-retry loop
(`gcp/ingester/pipeline.py` / `clients/fdsn_client.py`).

Modelling conventions, used throughout:

* Python `float` values are embedded as exact rationals (`ℚ`) in data records;
  arithmetic that feeds transcendental functions (the Haversine distance and
  the match score built on it) is carried out in `ℝ`.  This is the usual
  real-number idealization of floating point: rounding error is not modelled.
* Python `datetime` objects are embedded as their component tuple
  (year, month, day, hour, minute, second, microsecond) plus an optional UTC
  offset in minutes (`none` = naive), exactly the information a `datetime`
  carries.  Comparison of aware datetimes goes through an epoch-microsecond
  linearization, as in CPython.
* Python strings are Lean `String`s; string algorithms (split, strip, lower,
  lexicographic comparison) are implemented structurally over `List Char` so
  that every definition evaluates by kernel reduction.  Python compares
  strings by code point, which is exactly `Char.toNat` ordering.
* JSON scalar property values are modelled by `JValue` (null, number,
  string).  Container-valued properties, `inf`/`nan` float literals and
  numeric underscore separators do not occur in the feeds and are outside the
  model.  Non-string scalars in purely descriptive string-typed slots
  (`place`, `author`, `url`) are treated as absent.
* Fallible Python code (a record parse that may raise) is modelled with
  `Except PyErr`; the per-record `try/except` skip loops of the parsers are
  modelled by folding that `Except`.
* `sorted(...)` (CPython's stable sort) is modelled by `List.insertionSort`,
  which is stable and produces the same list for any stable sort by the same
  key.
-/

/- Batteries marks the `Rat` field operations `@[irreducible]`, which blocks
`decide`-style evaluation of the embedded definitions on concrete inputs.
Restore the default reducibility; proofs are unaffected. -/
set_option allowUnsafeReducibility true in
attribute [semireducible] Rat.mul Rat.add Rat.sub Rat.div Rat.inv Rat.neg Rat.ofScientific

instance {ε α : Type} [DecidableEq ε] [DecidableEq α] : DecidableEq (Except ε α) :=
  fun a b =>
    match a, b with
    | .ok x, .ok y =>
      if h : x = y then .isTrue (by rw [h]) else .isFalse (fun hh => h (Except.ok.inj hh))
    | .error x, .error y =>
      if h : x = y then .isTrue (by rw [h]) else .isFalse (fun hh => h (Except.error.inj hh))
    | .ok _, .error _ => .isFalse (fun hh => Except.noConfusion hh)
    | .error _, .ok _ => .isFalse (fun hh => Except.noConfusion hh)

namespace QuakeStream

/-! ## Python exception kinds distinguished by the source's `except` clauses -/

inductive PyErr where
  | keyError
  | typeError
  | valueError
  | indexError
  | attributeError
deriving DecidableEq

/-! ## Character-level string helpers (structural models of CPython string ops) -/

/-- Code-point comparison, the order CPython uses for `str` comparison. -/
def charLtNat (a b : Char) : Bool := a.toNat < b.toNat

/-- Lexicographic `<=` on code points: the Boolean form of CPython `str.__le__`. -/
def lexLeChars : List Char → List Char → Bool
  | [], _ => true
  | _ :: _, [] => false
  | a :: as, b :: bs =>
    if a.toNat < b.toNat then true
    else if b.toNat < a.toNat then false
    else lexLeChars as bs

/-- CPython string `<=` (code-point lexicographic), as a proposition. -/
def strLe (a b : String) : Prop := lexLeChars a.toList b.toList = true

instance : DecidableRel strLe := fun a b => by unfold strLe; infer_instance

/-- Python `str.split(sep)` for a one-character separator. -/
def splitOnChar (sep : Char) : List Char → List (List Char)
  | [] => [[]]
  | c :: cs =>
    let rest := splitOnChar sep cs
    if c = sep then [] :: rest
    else match rest with
      | [] => [[c]]
      | r :: rs => (c :: r) :: rs

/-- The whitespace characters CPython `str.strip()` removes. -/
def isPySpace (c : Char) : Bool :=
  c = ' ' || c = '\t' || c = '\n' || c = '\r' || c = '\x0b' || c = '\x0c'

/-- Python `str.strip()` over a character list. -/
def stripChars (cs : List Char) : List Char :=
  ((cs.dropWhile isPySpace).reverse.dropWhile isPySpace).reverse

/-- Python `str.strip()`. -/
def pyStrip (s : String) : String := (stripChars s.toList).asString

/-- Python `str.lower()` (ASCII case folding suffices for the feeds' tokens). -/
def pyLowerChar (c : Char) : Char :=
  if 'A' ≤ c ∧ c ≤ 'Z' then Char.ofNat (c.toNat + 32) else c

/-- Python `str.lower()`. -/
def pyLowerStr (s : String) : String := (s.toList.map pyLowerChar).asString

/-- Python slicing `s[:n]`. -/
def pyTake (s : String) (n : ℕ) : String := (s.toList.take n).asString

/-- Python `str.startswith(p)`. -/
def pyStartsWith (s p : String) : Bool := s.toList.take p.toList.length = p.toList

/-- Python `str.ljust(n, '0')` (as used to pad fractional seconds). -/
def ljustZero (cs : List Char) (n : ℕ) : List Char :=
  cs ++ List.replicate (n - cs.length) '0'

/-- Python `str.replace(old, new)` for the one-character pattern `"Z"`. -/
def replaceZ (cs : List Char) (new : List Char) : List Char :=
  cs.flatMap (fun c => if c = 'Z' then new else [c])

/-! ## Numeric string parsing (models of CPython `float(str)` / `int(str)`) -/

/-- Value of a list of decimal digits. -/
def digitsVal : List Char → ℕ
  | [] => 0
  | c :: cs => digitsVal cs + (c.toNat - '0'.toNat) * 10 ^ cs.length

/-- Parse an optional sign, returning the sign and the remaining characters. -/
def splitSign : List Char → Bool × List Char
  | '+' :: cs => (false, cs)
  | '-' :: cs => (true, cs)
  | cs => (false, cs)

/-- Parse the digit body of a float literal: `ddd`, `ddd.ddd`, `ddd.`, `.ddd`,
with an optional exponent part.  Returns the rational value. -/
def parseFloatBody (cs : List Char) : Except PyErr ℚ :=
  let intPart := cs.takeWhile Char.isDigit
  let rest := cs.dropWhile Char.isDigit
  let (fracPart, rest') :=
    match rest with
    | '.' :: t => (t.takeWhile Char.isDigit, t.dropWhile Char.isDigit)
    | _ => ([], rest)
  let hasDot := match rest with | '.' :: _ => true | _ => false
  if intPart.isEmpty ∧ fracPart.isEmpty then .error .valueError
  else
    let mantissa : ℚ :=
      (digitsVal intPart : ℚ) + (digitsVal fracPart : ℚ) / (10 ^ fracPart.length : ℚ)
    match rest' with
    | [] => .ok mantissa
    | e :: t =>
      if (e = 'e' ∨ e = 'E') ∧ (hasDot ∨ ¬ intPart.isEmpty) then
        let (eneg, t') := splitSign t
        let eDigits := t'.takeWhile Char.isDigit
        if eDigits.isEmpty ∨ ¬ (t'.dropWhile Char.isDigit).isEmpty then .error .valueError
        else
          let ex := digitsVal eDigits
          .ok (if eneg then mantissa / 10 ^ ex else mantissa * 10 ^ ex)
      else .error .valueError

/-- CPython `float(s)` on a string: strip whitespace, optional sign, decimal
literal with optional fraction and exponent (`inf`/`nan` and `_` separators
are outside the model). -/
def parseFloat (s : String) : Except PyErr ℚ :=
  let (neg, body) := splitSign (stripChars s.toList)
  (parseFloatBody body).map (fun q => if neg then -q else q)

/-- CPython `int(s)` on a string: strip, optional sign, digits only. -/
def parsePyInt (s : String) : Except PyErr ℤ :=
  let (neg, body) := splitSign (stripChars s.toList)
  if body.isEmpty ∨ ¬ body.all Char.isDigit then .error .valueError
  else .ok (if neg then -(digitsVal body : ℤ) else (digitsVal body : ℤ))

/-- Truncation toward zero, CPython `int(float)`. -/
def ratTruncToInt (q : ℚ) : ℤ := if 0 ≤ q then Rat.floor q else -(Rat.floor (-q))

/-! ## Datetime model (component tuple, as CPython `datetime` stores it) -/

/-- A CPython `datetime`: component fields plus an optional fixed UTC offset
in minutes (`none` = naive; `some 0` = `timezone.utc`). -/
structure PyDateTime where
  year : ℤ
  month : ℕ
  day : ℕ
  hour : ℕ
  minute : ℕ
  second : ℕ
  microsecond : ℕ
  tzOffsetMinutes : Option ℤ
deriving DecidableEq

/-- `tzinfo is not None`. -/
def PyDateTime.isAware (t : PyDateTime) : Bool := t.tzOffsetMinutes.isSome

/-- Days from civil date to 1970-01-01 (proleptic Gregorian; the standard
"days from civil" computation with flooring division, valid for all years). -/
def daysFromCivil (y : ℤ) (m d : ℕ) : ℤ :=
  let yShift : ℤ := if m ≤ 2 then y - 1 else y
  let mShift : ℤ := if m ≤ 2 then (m : ℤ) + 9 else (m : ℤ) - 3
  Int.fdiv (153 * mShift + 2) 5 + (d : ℤ) - 1 + 365 * yShift +
    Int.fdiv yShift 4 - Int.fdiv yShift 100 + Int.fdiv yShift 400 - 719468

/-- Civil date from days since 1970-01-01 (inverse of `daysFromCivil`). -/
def civilFromDays (z0 : ℤ) : ℤ × ℕ × ℕ :=
  let z := z0 + 719468
  let era := Int.fdiv z 146097
  let doe := z - era * 146097
  let yoe := Int.fdiv (doe - Int.fdiv doe 1460 + Int.fdiv doe 36524 - Int.fdiv doe 146096) 365
  let y := yoe + era * 400
  let doy := doe - (365 * yoe + Int.fdiv yoe 4 - Int.fdiv yoe 100)
  let mp := Int.fdiv (5 * doy + 2) 153
  let d := doy - Int.fdiv (153 * mp + 2) 5 + 1
  let m := if mp < 10 then mp + 3 else mp - 9
  (if m ≤ 2 then y + 1 else y, m.toNat, d.toNat)

/-- Microseconds since the epoch of the datetime's wall-clock components
(offset not applied). -/
def PyDateTime.naiveEpochMicros (t : PyDateTime) : ℤ :=
  ((daysFromCivil t.year t.month t.day * 86400 +
    (t.hour : ℤ) * 3600 + (t.minute : ℤ) * 60 + (t.second : ℤ)) * 1000000 +
    (t.microsecond : ℤ))

/-- Microseconds since the epoch in UTC; for aware datetimes the offset is
subtracted, which is how CPython compares aware datetimes. -/
def PyDateTime.utcEpochMicros (t : PyDateTime) : ℤ :=
  t.naiveEpochMicros - (t.tzOffsetMinutes.getD 0) * 60 * 1000000

/-- CPython `a > b` for two aware datetimes. -/
def pyDtGt (a b : PyDateTime) : Prop := b.utcEpochMicros < a.utcEpochMicros

instance : DecidableRel pyDtGt := fun a b => by unfold pyDtGt; infer_instance

/-- Round half to even on microseconds, as CPython does when converting a
float timestamp. -/
def roundHalfEven (x : ℚ) : ℤ :=
  let f := Rat.floor x
  let r := x - (f : ℚ)
  if r < 1/2 then f
  else if 1/2 < r then f + 1
  else if f % 2 = 0 then f else f + 1

/-- CPython `datetime.fromtimestamp(q, tz=timezone.utc)`: seconds since the
epoch to an aware UTC datetime. -/
def fromTimestampUtc (q : ℚ) : PyDateTime :=
  let micros := roundHalfEven (q * 1000000)
  let secs := Int.fdiv micros 1000000
  let us := (micros - secs * 1000000).toNat
  let days := Int.fdiv secs 86400
  let sod := (secs - days * 86400).toNat
  let (y, m, d) := civilFromDays days
  { year := y, month := m, day := d,
    hour := sod / 3600, minute := sod % 3600 / 60, second := sod % 60,
    microsecond := us, tzOffsetMinutes := some 0 }

/-- Number of days in a month of the proleptic Gregorian calendar. -/
def daysInMonth (y : ℤ) (m : ℕ) : ℕ :=
  if m = 2 then (if y % 4 = 0 ∧ (y % 100 ≠ 0 ∨ y % 400 = 0) then 29 else 28)
  else if m = 4 ∨ m = 6 ∨ m = 9 ∨ m = 11 then 30
  else 31

/-- Two zero-padded decimal digits. -/
def pad2 (n : ℕ) : String := (if n < 10 then "0" else "") ++ toString n
/-- Four zero-padded decimal digits (years in this pipeline are 4-digit). -/
def pad4 (n : ℤ) : String :=
  (if n < 10 then "000" else if n < 100 then "00" else if n < 1000 then "0" else "") ++ toString n

/-- CPython `str(datetime)`: `YYYY-MM-DD HH:MM:SS[.ffffff][+HH:MM]`. -/
def pyDateTimeStr (t : PyDateTime) : String :=
  pad4 t.year ++ "-" ++ pad2 t.month ++ "-" ++ pad2 t.day ++ " " ++
  pad2 t.hour ++ ":" ++ pad2 t.minute ++ ":" ++ pad2 t.second ++
  (if t.microsecond = 0 then "" else
    "." ++ (if t.microsecond < 10 then "00000" else if t.microsecond < 100 then "0000"
      else if t.microsecond < 1000 then "000" else if t.microsecond < 10000 then "00"
      else if t.microsecond < 100000 then "0" else "") ++ toString t.microsecond) ++
  (match t.tzOffsetMinutes with
   | none => ""
   | some off =>
     (if off < 0 then "-" else "+") ++ pad2 (off.natAbs / 60) ++ ":" ++ pad2 (off.natAbs % 60))

/-- Split on a (non-empty) separator substring, CPython `str.split(sep)`.
The first argument is evaluation fuel, instantiated with the list length. -/
def splitOnSubFuel (sep : List Char) : ℕ → List Char → List Char → List (List Char)
  | 0, cs, acc => [acc.reverse ++ cs]
  | _ + 1, [], acc => [acc.reverse]
  | fuel + 1, c :: cs, acc =>
    if (c :: cs).take sep.length = sep then
      acc.reverse :: splitOnSubFuel sep fuel ((c :: cs).drop sep.length) []
    else splitOnSubFuel sep fuel cs (c :: acc)

/-- CPython `s.split(sep)` for a non-empty separator string. -/
def pySplitStr (s sep : String) : List String :=
  if sep.toList = [] then [s]
  else (splitOnSubFuel sep.toList s.toList.length s.toList []).map List.asString

/-! ## ISO 8601 parsing (model of CPython 3.9 `datetime.fromisoformat`)

The feeds produce timestamps of the form `YYYY-MM-DD[T ]HH:MM:SS[.fff|.ffffff][+HH:MM]`
(the FDSN text parser normalizes fractional seconds to six digits before the
call).  Shorter ISO forms accepted by CPython do not occur and are outside the
model. -/

/-- Parse the trailing UTC-offset part `[+HH:MM]` of an ISO timestamp. -/
def parseIsoTz : List Char → Except PyErr (Option ℤ)
  | [] => .ok none
  | s :: h1 :: h2 :: ':' :: m1 :: m2 :: [] =>
    if (s = '+' ∨ s = '-') ∧ h1.isDigit ∧ h2.isDigit ∧ m1.isDigit ∧ m2.isDigit then
      let hh := digitsVal [h1, h2]
      let mm := digitsVal [m1, m2]
      if hh ≤ 23 ∧ mm ≤ 59 then
        .ok (some (if s = '-' then -((hh * 60 + mm : ℕ) : ℤ) else ((hh * 60 + mm : ℕ) : ℤ)))
      else .error .valueError
    else .error .valueError
  | _ => .error .valueError

/-- Parse the fractional-second and offset tail of an ISO timestamp; returns
microseconds and the offset. -/
def parseIsoFracTz : List Char → Except PyErr (ℕ × Option ℤ)
  | [] => .ok (0, none)
  | '.' :: rest =>
    let ds := rest.takeWhile Char.isDigit
    let rest' := rest.dropWhile Char.isDigit
    if ds.length = 3 then (parseIsoTz rest').map (fun tz => (digitsVal ds * 1000, tz))
    else if ds.length = 6 then (parseIsoTz rest').map (fun tz => (digitsVal ds, tz))
    else .error .valueError
  | rest => (parseIsoTz rest).map (fun tz => (0, tz))

/-- CPython 3.9 `datetime.fromisoformat` on the timestamp shapes of the feeds. -/
def fromIsoFormat (s : String) : Except PyErr PyDateTime :=
  match s.toList with
  | y1 :: y2 :: y3 :: y4 :: '-' :: mo1 :: mo2 :: '-' :: d1 :: d2 :: sep :: h1 :: h2 ::
    ':' :: mi1 :: mi2 :: ':' :: s1 :: s2 :: rest =>
    if ([y1, y2, y3, y4, mo1, mo2, d1, d2, h1, h2, mi1, mi2, s1, s2].all Char.isDigit) ∧
       (sep = 'T' ∨ sep = ' ') then
      match parseIsoFracTz rest with
      | .error e => .error e
      | .ok (us, tz) =>
        let y := digitsVal [y1, y2, y3, y4]
        let mo := digitsVal [mo1, mo2]
        let d := digitsVal [d1, d2]
        let h := digitsVal [h1, h2]
        let mi := digitsVal [mi1, mi2]
        let se := digitsVal [s1, s2]
        if 1 ≤ y ∧ 1 ≤ mo ∧ mo ≤ 12 ∧ 1 ≤ d ∧ d ≤ daysInMonth (y : ℤ) mo ∧
           h ≤ 23 ∧ mi ≤ 59 ∧ se ≤ 59 then
          .ok ⟨y, mo, d, h, mi, se, us, tz⟩
        else .error .valueError
    else .error .valueError
  | _ => .error .valueError

/-! ## JSON scalar values and Python dictionary access -/

/-- A scalar JSON property value as CPython sees it after `json.loads`:
`null`/absent becomes `None`, numbers become `float`/`int`, strings stay. -/
inductive JValue where
  | null
  | num (q : ℚ)
  | str (s : String)
deriving DecidableEq

/-- Property dictionaries, as association lists with unique keys. -/
abbrev JProps := List (String × JValue)

/-- Raw lookup: `some v` when the key is present. -/
def getProp (ps : JProps) (k : String) : Option JValue :=
  (ps.find? (fun p => p.1 = k)).map (fun p => p.2)

/-- CPython `d.get(k)`: `None` when the key is absent — indistinguishable from
a stored JSON `null`. -/
def pyGet (ps : JProps) (k : String) : JValue :=
  match getProp ps k with
  | none => .null
  | some v => v

/-- CPython `d.get(k, default)`: the default applies only when the key is
absent; a stored `null` is returned as `None`. -/
def pyGetD (ps : JProps) (k : String) (d : JValue) : JValue :=
  match getProp ps k with
  | none => d
  | some v => v

/-- CPython `d[k]`: `KeyError` when absent. -/
def pyGetItem (ps : JProps) (k : String) : Except PyErr JValue :=
  match getProp ps k with
  | none => .error .keyError
  | some v => .ok v

/-- CPython truthiness of a scalar: `None`, `0.0` and `""` are falsy. -/
def jTruthy : JValue → Bool
  | .null => false
  | .num q => decide (q ≠ 0)
  | .str s => !(s.toList.isEmpty)

/-- CPython `a or b` on scalars (returns `a` when truthy, else `b`). -/
def jvOr (a b : JValue) : JValue := if jTruthy a then a else b

/-- CPython `float(v)` on a scalar: `None` raises `TypeError`, strings are
parsed (raising `ValueError` on junk). -/
def pyFloat : JValue → Except PyErr ℚ
  | .null => .error .typeError
  | .num q => .ok q
  | .str s => parseFloat s

/-- A scalar used as a number in arithmetic or an order comparison
(`v / 1000`, `v > 180`): anything but a number raises `TypeError`. -/
def pyToNum : JValue → Except PyErr ℚ
  | .num q => .ok q
  | _ => .error .typeError

/-- CPython `v.lower()`: only strings have the attribute. -/
def pyLowerJ : JValue → Except PyErr String
  | .str s => .ok (pyLowerStr s)
  | _ => .error .attributeError

/-- A scalar stored into a string-typed descriptive slot: strings pass,
`null` is `None`; non-string scalars are modelled as absent. -/
def optStr : JValue → Option String
  | .str s => some s
  | _ => none

/-- `_safe_float` of the GeoJSON parsers: `None` on `None` or junk. -/
def safeFloat (v : JValue) : Option ℚ :=
  match v with
  | .null => none
  | .num q => some q
  | .str s => (parseFloat s).toOption

/-- `_safe_int` of the GeoJSON parsers. -/
def safeInt (v : JValue) : Option ℤ :=
  match v with
  | .null => none
  | .num q => some (ratTruncToInt q)
  | .str s => (parsePyInt s).toOption

/-! ## Canonical event model (`models_v2.NormalizedEvent`) -/

/-- `models_v2.NormalizedEvent`: one normalized observation of one earthquake
by one catalog.  Float fields are exact rationals, datetimes are component
tuples. -/
structure NormalizedEvent where
  event_uid : String
  source : String
  source_event_id : String
  origin_time_utc : PyDateTime
  latitude : ℚ
  longitude : ℚ
  depth_km : ℚ
  magnitude_value : ℚ
  magnitude_type : String
  place : Option String := none
  region : Option String := none
  lat_error_km : Option ℚ := none
  lon_error_km : Option ℚ := none
  depth_error_km : Option ℚ := none
  mag_error : Option ℚ := none
  time_error_sec : Option ℚ := none
  status : String := "automatic"
  num_phases : Option ℤ := none
  azimuthal_gap : Option ℚ := none
  author : Option String := none
  url : Option String := none
  fetched_at : PyDateTime
  updated_at : Option PyDateTime := none
  raw_payload : String := ""
deriving DecidableEq

/-! ## Validator (`parsers/base.py`, `EventParser.validate`) -/

/-- The comparison bound the validator builds for the future check:
`now.replace(hour=now.hour + 1 if now.hour < 23 else 23)`.  Note that for
`now.hour == 23` this is `now` itself — the stated one-hour tolerance
degenerates to zero during the last hour of the day. -/
def futureCutoff (now : PyDateTime) : PyDateTime :=
  { now with hour := if now.hour < 23 then now.hour + 1 else 23 }

/-- `EventParser.validate(event)`.  Pure except for its read of the current
time, which is passed here as the explicit parameter `now` (an aware UTC
datetime).  Returns the error messages in the order the source appends them;
an empty list means the event is valid. -/
def validate (event : NormalizedEvent) (now : PyDateTime) : List String :=
  (if ¬(-90 ≤ event.latitude ∧ event.latitude ≤ 90) then
    ["latitude " ++ toString event.latitude ++ " out of range [-90, 90]"] else []) ++
  (if ¬(-180 ≤ event.longitude ∧ event.longitude ≤ 180) then
    ["longitude " ++ toString event.longitude ++ " out of range [-180, 180]"] else []) ++
  (if event.depth_km < -10 then
    ["depth_km " ++ toString event.depth_km ++ " unreasonably negative"] else []) ++
  (if 800 < event.depth_km then
    ["depth_km " ++ toString event.depth_km ++ " exceeds 800 km"] else []) ++
  (if ¬(-2 ≤ event.magnitude_value ∧ event.magnitude_value ≤ 10) then
    ["magnitude_value " ++ toString event.magnitude_value ++ " out of range [-2, 10]"] else []) ++
  (if event.origin_time_utc.tzOffsetMinutes = none then
    ["origin_time_utc is not timezone-aware"]
   else if pyDtGt event.origin_time_utc (futureCutoff now) then
    ["origin_time_utc " ++ pyDateTimeStr event.origin_time_utc ++ " is in the future"]
   else []) ++
  (if ¬(event.status = "automatic" ∨ event.status = "reviewed" ∨ event.status = "deleted") then
    ["status '" ++ event.status ++ "' not in (automatic, reviewed, deleted)"] else []) ++
  (if event.event_uid = "" then ["event_uid is empty"] else []) ++
  (if event.source = "" then ["source is empty"] else []) ++
  (if event.source_event_id = "" then ["source_event_id is empty"] else [])

/-! ## GeoJSON feature model and the three parsers -/

/-- A GeoJSON feature as the parsers consume it: the feature `id` (a string
when present), the `properties` dictionary of scalars, and the
`geometry.coordinates` array.  The `properties`/`geometry` envelope keys are
always present in the feeds and are not modelled as failable. -/
structure Feature where
  id : Option String := none
  properties : JProps := []
  coordinates : List JValue := []
deriving DecidableEq

/-- CPython `xs[i]` on a list: `IndexError` when out of range. -/
def pyIndex (l : List JValue) (i : ℕ) : Except PyErr JValue :=
  match l.get? i with
  | none => .error .indexError
  | some v => .ok v

/-- The longitude normalization block shared verbatim by all three parsers:
`if lon > 180: lon -= 360 elif lon < -180: lon += 360`. -/
def normalizeLongitude (lon : ℚ) : ℚ :=
  if lon > 180 then lon - 360 else if lon < -180 then lon + 360 else lon

/-- The `place` slot feeding `_extract_region`: `None` and strings pass;
a truthy number makes `_extract_region` call `.split` on a float and raise
`AttributeError` (a falsy `0.0` is modelled as absent). -/
def pyPlaceSlot : JValue → Except PyErr (Option String)
  | .null => .ok none
  | .str s => .ok (some s)
  | .num q => if q = 0 then .ok none else .error .attributeError

/-- `usgs_geojson._extract_region`: last `", "`-separated token of the place,
when there is more than one. -/
def extractRegion : Option String → Option String
  | none => none
  | some p =>
    if p.toList.isEmpty then none
    else
      let parts := pySplitStr p ", "
      if parts.length > 1 then
        match parts.getLast? with
        | some r => some r
        | none => none
      else some p

/-- CPython `str(v)` as used in f-strings for event ids (float repr detail of
numeric ids is immaterial to every verified claim). -/
def pyStrOfJ : JValue → String
  | .null => "None"
  | .num q => toString q
  | .str s => s

/-- `tzinfo is None` replacement with UTC, as done after ISO parsing. -/
def setUtcIfNaive (t : PyDateTime) : PyDateTime :=
  if t.tzOffsetMinutes = none then { t with tzOffsetMinutes := some 0 } else t

/-- `feature["id"]` of the USGS parser: `KeyError` when absent. -/
def pyFeatureId (f : Feature) : Except PyErr String :=
  match f.id with
  | some s => .ok s
  | none => .error .keyError

/-- The `updated` handling of the USGS parser:
`fromtimestamp(updated_ms / 1000, utc) if updated_ms else None`. -/
def usgsUpdatedAt (updJ : JValue) : Except PyErr (Option PyDateTime) :=
  if jTruthy updJ then (pyToNum updJ).map (fun q => some (fromTimestampUtc (q / 1000)))
  else .ok none

/-- `USGSGeoJSONParser._parse_feature`, in the source's evaluation order. -/
def usgsParseFeature (f : Feature) (fetchedAt : PyDateTime) : Except PyErr NormalizedEvent := do
  let sid ← pyFeatureId f
  let magV := jvOr (pyGet f.properties "mag") (.num 0)
  let magType ← pyLowerJ (jvOr (pyGet f.properties "magType") (.str "ml"))
  let placeJ := pyGet f.properties "place"
  let timeJ ← pyGetItem f.properties "time"
  let timeMs ← pyToNum timeJ
  let originTime := fromTimestampUtc (timeMs / 1000)
  let updatedAt ← usgsUpdatedAt (pyGet f.properties "updated")
  let statusRaw ← pyLowerJ (jvOr (pyGet f.properties "status") (.str "automatic"))
  let status :=
    if statusRaw = "automatic" ∨ statusRaw = "reviewed" ∨ statusRaw = "deleted" then statusRaw
    else "automatic"
  let lonJ ← pyIndex f.coordinates 0
  let lonRaw ← pyToNum lonJ
  let longitude := normalizeLongitude lonRaw
  let latJ ← pyIndex f.coordinates 1
  let latitude ← pyToNum latJ
  let depthJ ← pyIndex f.coordinates 2
  let depth ← pyToNum depthJ
  let mag ← pyFloat magV
  let place ← pyPlaceSlot placeJ
  Except.ok {
    event_uid := "usgs:" ++ sid, source := "usgs", source_event_id := sid,
    origin_time_utc := originTime, latitude := latitude, longitude := longitude,
    depth_km := depth, magnitude_value := mag, magnitude_type := magType,
    place := place, region := extractRegion place,
    lat_error_km := safeFloat (pyGet f.properties "horizontalError"),
    lon_error_km := safeFloat (pyGet f.properties "horizontalError"),
    depth_error_km := safeFloat (pyGet f.properties "depthError"),
    mag_error := safeFloat (pyGet f.properties "magError"),
    time_error_sec := safeFloat (pyGet f.properties "timeError"),
    status := status,
    num_phases := safeInt (pyGet f.properties "nph"),
    azimuthal_gap := safeFloat (pyGet f.properties "gap"),
    author := optStr (pyGet f.properties "net"),
    url := optStr (pyGet f.properties "url"),
    fetched_at := fetchedAt, updated_at := updatedAt, raw_payload := "" }

/-- EMSC time handling: ISO 8601 string (with `Z` replaced) or a millisecond
number. -/
def emscParseTime (v : JValue) : Except PyErr PyDateTime :=
  match v with
  | .str s => fromIsoFormat (replaceZ s.toList "+00:00".toList).asString
  | other => (pyToNum other).map (fun q => fromTimestampUtc (q / 1000))

/-- EMSC `lastupdate`/`updated` handling, gated on truthiness. -/
def emscUpdatedAt (updJ : JValue) : Except PyErr (Option PyDateTime) :=
  if jTruthy updJ then (emscParseTime updJ).map some
  else .ok none

/-- `EMSCGeoJSONParser._parse_feature`, in the source's evaluation order. -/
def emscParseFeature (f : Feature) (fetchedAt : PyDateTime) : Except PyErr NormalizedEvent := do
  let featureIdJ : JValue := .str ((f.id).getD "")
  let sidJ := jvOr (pyGet f.properties "unid") (jvOr (pyGet f.properties "source_id") featureIdJ)
  let timeJ ← pyGetItem f.properties "time"
  let originTime0 ← emscParseTime timeJ
  let originTime := setUtcIfNaive originTime0
  let mag ← pyFloat (pyGetD f.properties "mag" (.num 0))
  let magType ← pyLowerJ (jvOr (pyGet f.properties "magtype")
    (jvOr (pyGet f.properties "magType") (.str "ml")))
  let flynnJ := pyGet f.properties "flynn_region"
  let placeJ := jvOr flynnJ (pyGet f.properties "place")
  let updatedAt ← emscUpdatedAt
    (jvOr (pyGet f.properties "lastupdate") (pyGet f.properties "updated"))
  let statusRaw ← pyLowerJ (jvOr (pyGet f.properties "status") (.str "automatic"))
  let status :=
    if statusRaw = "automatic" ∨ statusRaw = "reviewed" ∨ statusRaw = "deleted" then statusRaw
    else "automatic"
  let lonJ ← pyIndex f.coordinates 0
  let lonRaw ← pyToNum lonJ
  let longitude := normalizeLongitude lonRaw
  let latJ ← pyIndex f.coordinates 1
  let latitude ← pyToNum latJ
  let depthJ ← pyIndex f.coordinates 2
  let depth ← pyToNum depthJ
  Except.ok {
    event_uid := "emsc:" ++ pyStrOfJ sidJ, source := "emsc",
    source_event_id := pyStrOfJ sidJ,
    origin_time_utc := originTime, latitude := latitude, longitude := longitude,
    depth_km := depth, magnitude_value := mag, magnitude_type := magType,
    place := optStr placeJ, region := optStr flynnJ,
    lat_error_km := safeFloat (pyGet f.properties "horizontalError"),
    lon_error_km := safeFloat (pyGet f.properties "horizontalError"),
    depth_error_km := safeFloat (pyGet f.properties "depthError"),
    mag_error := safeFloat (pyGet f.properties "magError"),
    time_error_sec := safeFloat (pyGet f.properties "timeError"),
    status := status,
    num_phases := safeInt (pyGet f.properties "nph"),
    azimuthal_gap := safeFloat (pyGet f.properties "gap"),
    author := optStr (jvOr (pyGet f.properties "auth") (pyGet f.properties "net")),
    url := optStr (pyGet f.properties "url"),
    fetched_at := fetchedAt, updated_at := updatedAt, raw_payload := "" }

/-- The exception classes caught per record by the GeoJSON parsers'
`except (KeyError, TypeError, ValueError)`. -/
def geojsonCaught : PyErr → Bool
  | .keyError => true
  | .typeError => true
  | .valueError => true
  | _ => false

/-- The per-feature loop of `USGSGeoJSONParser.parse` / `EMSCGeoJSONParser.parse`:
caught exceptions skip the record, anything else propagates. -/
def parseFeaturesLoop (parseOne : Feature → Except PyErr NormalizedEvent) :
    List Feature → Except PyErr (List NormalizedEvent)
  | [] => .ok []
  | f :: rest =>
    match parseOne f with
    | .ok e => (parseFeaturesLoop parseOne rest).map (fun es => e :: es)
    | .error err =>
      if geojsonCaught err then parseFeaturesLoop parseOne rest else .error err

/-- `USGSGeoJSONParser.parse` from the features array on. -/
def usgsParse (fs : List Feature) (fetchedAt : PyDateTime) : Except PyErr (List NormalizedEvent) :=
  parseFeaturesLoop (fun f => usgsParseFeature f fetchedAt) fs

/-- `EMSCGeoJSONParser.parse` from the features array on. -/
def emscParse (fs : List Feature) (fetchedAt : PyDateTime) : Except PyErr (List NormalizedEvent) :=
  parseFeaturesLoop (fun f => emscParseFeature f fetchedAt) fs

/-! ## FDSN pipe-delimited text parser (`parsers/fdsn_text.py`) -/

/-- `float(col) if col else 0.0`, the empty-field default of the FDSN text
parser's depth and magnitude columns. -/
def floatOrZero (s : String) : Except PyErr ℚ :=
  if s.toList.isEmpty then .ok 0 else parseFloat s

/-- CPython `cols[i]` on the split columns. -/
def getCol (cols : List String) (i : ℕ) : Except PyErr String :=
  match cols.get? i with
  | none => .error .indexError
  | some s => .ok s

/-- The fractional-second normalization block of `FDSNTextParser._parse_line`
(lines 61–74): split once at the first dot, separate the fraction from a
trailing offset (first character among `+`, `-`, `Z`), left-justify the
fraction with zeros to six digits, truncate to six, reassemble. -/
def normalizeFrac (cs : List Char) : List Char :=
  if cs.contains '.' then
    let base := cs.takeWhile (fun c => c ≠ '.')
    let rest := (cs.dropWhile (fun c => c ≠ '.')).drop 1
    let frac := rest.takeWhile (fun c => ¬(c = '+' ∨ c = '-' ∨ c = 'Z'))
    let tzSuffix := rest.dropWhile (fun c => ¬(c = '+' ∨ c = '-' ∨ c = 'Z'))
    base ++ '.' :: ((ljustZero frac 6).take 6 ++ tzSuffix)
  else cs

/-- `cols = [c.strip() for c in line.split("|")]`. -/
def fdsnCols (line : String) : List String :=
  (splitOnChar '|' line.toList).map (fun c => (stripChars c).asString)

/-- `FDSNTextParser._parse_line`, in the source's evaluation order. -/
def fdsnParseLine (defaultSource : String) (line : String) (fetchedAt : PyDateTime) :
    Except PyErr NormalizedEvent := do
  let cols := fdsnCols line
  let sid ← getCol cols 0
  let timeStr ← getCol cols 1
  let timeChars := normalizeFrac (replaceZ timeStr.toList "+00:00".toList)
  let originTime0 ← fromIsoFormat timeChars.asString
  let originTime := setUtcIfNaive originTime0
  let latStr ← getCol cols 2
  let latitude ← parseFloat latStr
  let lonStr ← getCol cols 3
  let lonRaw ← parseFloat lonStr
  let longitude := normalizeLongitude lonRaw
  let depthStr ← getCol cols 4
  let depth ← floatOrZero depthStr
  let c9 := cols.getD 9 ""
  let magType := pyLowerStr (if c9.toList.isEmpty then "ml" else c9)
  let c10 := cols.getD 10 ""
  let magValue ← floatOrZero c10
  let c5 := cols.getD 5 ""
  let author := if c5.toList.isEmpty then none else some c5
  let c12 := cols.getD 12 ""
  let place := if c12.toList.isEmpty then none else some c12
  Except.ok {
    event_uid := defaultSource ++ ":" ++ sid, source := defaultSource,
    source_event_id := sid, origin_time_utc := originTime,
    latitude := latitude, longitude := longitude, depth_km := depth,
    magnitude_value := magValue, magnitude_type := magType,
    place := place, region := place, status := "automatic",
    author := author, fetched_at := fetchedAt, raw_payload := "" }

/-- The exception classes caught per line by `FDSNTextParser.parse`
(`except (IndexError, ValueError)`). -/
def fdsnCaught : PyErr → Bool
  | .indexError => true
  | .valueError => true
  | _ => false

/-- The per-line loop of `FDSNTextParser.parse`: header lines (`EventID...`,
`#...`) and blank lines are skipped; caught exceptions skip the line. -/
def fdsnParseLines (defaultSource : String) (fetchedAt : PyDateTime) :
    List String → Except PyErr (List NormalizedEvent)
  | [] => .ok []
  | l :: rest =>
    if (stripChars l.toList).isEmpty ∨ pyStartsWith l "EventID" ∨ pyStartsWith l "#" then
      fdsnParseLines defaultSource fetchedAt rest
    else
      match fdsnParseLine defaultSource l fetchedAt with
      | .ok e => (fdsnParseLines defaultSource fetchedAt rest).map (fun es => e :: es)
      | .error err =>
        if fdsnCaught err then fdsnParseLines defaultSource fetchedAt rest else .error err

/-- `FDSNTextParser.parse`: strip the payload, split into lines, run the loop.
(`splitlines` is modelled as splitting on newline.) -/
def fdsnParse (defaultSource : String) (raw : String) (fetchedAt : PyDateTime) :
    Except PyErr (List NormalizedEvent) :=
  fdsnParseLines defaultSource fetchedAt
    ((splitOnChar '\n' (stripChars raw.toList)).map List.asString)

/-! ## Geographic helpers (`geo.py`), over `ℝ` -/

/- Real-valued branching (score guards, `atan2`) uses classical decidability. -/
open Classical

/-- `geo.EARTH_RADIUS_KM`. -/
noncomputable def EARTH_RADIUS_KM : ℝ := 6371

/-- `math.radians`. -/
noncomputable def radians (x : ℝ) : ℝ := x * Real.pi / 180

/-- `math.atan2`, by its standard case analysis (signed zeros do not exist
in `ℝ`; `atan2(0, 0) = 0` as in CPython). -/
noncomputable def atan2 (y x : ℝ) : ℝ :=
  if x > 0 then Real.arctan (y / x)
  else if x < 0 ∧ 0 ≤ y then Real.arctan (y / x) + Real.pi
  else if x < 0 ∧ y < 0 then Real.arctan (y / x) - Real.pi
  else if x = 0 ∧ y > 0 then Real.pi / 2
  else if x = 0 ∧ y < 0 then -(Real.pi / 2)
  else 0

/-- `geo.haversine_km`: great-circle distance in kilometers. -/
noncomputable def haversine_km (lat1 lon1 lat2 lon2 : ℝ) : ℝ :=
  let rlat1 := radians lat1
  let rlon1 := radians lon1
  let rlat2 := radians lat2
  let rlon2 := radians lon2
  let dlat := rlat2 - rlat1
  let dlon := rlon2 - rlon1
  let a := Real.sin (dlat / 2) ^ 2 +
    Real.cos rlat1 * Real.cos rlat2 * Real.sin (dlon / 2) ^ 2
  let c := 2 * atan2 (Real.sqrt a) (Real.sqrt (1 - a))
  EARTH_RADIUS_KM * c

/-! ## Deduplicator (`deduplicator.py`) -/

/-- `SOURCE_PRIORITY` from `sources/__init__.py` (lower index = higher
priority). -/
def SOURCE_PRIORITY : List String := ["usgs", "emsc", "gfz"]

/-- `deduplicator.EventRecord`.  `origin_time_utc` is represented as seconds
since the epoch (as a rational), which is the only use the deduplicator makes
of record times (`(a - b).total_seconds()`). -/
structure EventRecord where
  event_uid : String
  source : String
  origin_time_utc : ℚ
  latitude : ℚ
  longitude : ℚ
  depth_km : ℚ
  magnitude_value : ℚ
  magnitude_type : String
  place : Option String := none
  region : Option String := none
  status : String := "automatic"
deriving DecidableEq, Inhabited

/-- `deduplicator.Cluster`. -/
structure Cluster where
  members : List EventRecord
  best_score : ℝ := 0

/-- `Cluster.anchor`: the first member inserted. -/
noncomputable def Cluster.anchor (c : Cluster) : EventRecord := c.members.headI

/-- Matching thresholds from `deduplicator.py`. -/
noncomputable def MAX_TIME_DIFF_SEC : ℝ := 30
noncomputable def MAX_DISTANCE_KM : ℝ := 100
noncomputable def MAX_MAG_DIFF : ℝ := 0.5
noncomputable def MATCH_SCORE_THRESHOLD : ℝ := 0.6

/-- `deduplicator.compute_match_score`. -/
noncomputable def compute_match_score (a b : EventRecord) : ℝ :=
  let dt := |(a.origin_time_utc : ℝ) - (b.origin_time_utc : ℝ)|
  if dt > MAX_TIME_DIFF_SEC then 0
  else
    let dist := haversine_km (a.latitude : ℝ) (a.longitude : ℝ) (b.latitude : ℝ) (b.longitude : ℝ)
    if dist > MAX_DISTANCE_KM then 0
    else
      let dmag := |(a.magnitude_value : ℝ) - (b.magnitude_value : ℝ)|
      if dmag > MAX_MAG_DIFF then 0
      else
        0.4 * max 0 (1 - dt / MAX_TIME_DIFF_SEC) +
          0.4 * max 0 (1 - dist / MAX_DISTANCE_KM) +
          0.2 * max 0 (1 - dmag / MAX_MAG_DIFF)

/-- The inner loop of `cluster_events`: scan the clusters in creation order,
tracking the best-scoring cluster so far (`best_cluster`, `best_score`); a
cluster is taken only when its score is at least the threshold and strictly
beats the best so far, so the earliest-created cluster wins ties.  The first
argument of the accumulator is the index of the best cluster so far. -/
noncomputable def findBestAux (e : EventRecord) :
    List Cluster → ℕ → Option ℕ → ℝ → Option ℕ × ℝ
  | [], _, bi, bs => (bi, bs)
  | c :: rest, i, bi, bs =>
    let s := compute_match_score e c.anchor
    if s ≥ MATCH_SCORE_THRESHOLD ∧ s > bs then findBestAux e rest (i + 1) (some i) s
    else findBestAux e rest (i + 1) bi bs

/-- Append the event to the cluster at the given index (the in-place
`best_cluster.members.append(event)` plus the `best_score` update). -/
noncomputable def attachAt (e : EventRecord) : List Cluster → ℕ → ℝ → List Cluster
  | [], _, _ => []
  | c :: rest, 0, s => { members := c.members ++ [e], best_score := max c.best_score s } :: rest
  | c :: rest, n + 1, s => c :: attachAt e rest n s

/-- One iteration of the `for event in events_sorted` loop of
`cluster_events`. -/
noncomputable def clusterStep (cs : List Cluster) (e : EventRecord) : List Cluster :=
  match findBestAux e cs 0 none 0 with
  | (some i, s) => attachAt e cs i s
  | (none, _) => cs ++ [{ members := [e] }]

/-- `deduplicator.cluster_events`: stable sort ascending by `origin_time_utc`
(CPython's stable sort modelled by insertion sort), then greedy chronological
clustering. -/
noncomputable def cluster_events (events : List EventRecord) : List Cluster :=
  (List.insertionSort (fun a b => a.origin_time_utc ≤ b.origin_time_utc) events).foldl
    clusterStep []

/-- The `source_rank` helper of `_select_preferred` (and the rank used by
`_weighted_mean`): index in `SOURCE_PRIORITY`, or its length for unknown
sources. -/
def source_rank (e : EventRecord) : ℕ :=
  match SOURCE_PRIORITY.indexOf? e.source with
  | some i => i
  | none => SOURCE_PRIORITY.length

/-- CPython `min(x :: xs, key=k)`: the first element attaining the minimal
key (`min` replaces the current best only on a strictly smaller key). -/
def pyMinBy (k : EventRecord → ℕ) (x : EventRecord) (xs : List EventRecord) : EventRecord :=
  xs.foldl (fun b a => if k a < k b then a else b) x

/-- The candidate list of `_select_preferred`:
`reviewed if reviewed else cluster.members`. -/
def preferredCandidates (c : Cluster) : List EventRecord :=
  if (c.members.filter (fun m => decide (m.status = "reviewed"))).isEmpty then c.members
  else c.members.filter (fun m => decide (m.status = "reviewed"))

/-- `deduplicator._select_preferred`: restrict to reviewed members when any
exist, then take the minimum by source rank.  (CPython `min` raises on an
empty sequence; clusters are never empty, and the empty case returns the
default record.) -/
def _select_preferred (c : Cluster) : EventRecord :=
  match preferredCandidates c with
  | [] => default
  | x :: xs => pyMinBy source_rank x xs

/-- Python `"|".join(uids)`. -/
def joinPipe : List String → String
  | [] => ""
  | [s] => s
  | s :: rest => s ++ "|" ++ joinPipe rest

/-- The sorted member uids of a cluster (`sorted(m.event_uid for m in
cluster.members)`, CPython code-point string order). -/
def sortedUids (c : Cluster) : List String :=
  List.insertionSort strLe (c.members.map (fun m => m.event_uid))

/-- `deduplicator._weighted_mean`: priority-weighted mean of lat/lon/depth.
The weight of a member is `max(1, len(SOURCE_PRIORITY) - rank)`. -/
def sourceWeight (m : EventRecord) : ℚ :=
  max 1 ((SOURCE_PRIORITY.length : ℚ) - (source_rank m : ℚ))

/-- `deduplicator._weighted_mean`. -/
noncomputable def _weighted_mean (c : Cluster) : ℚ × ℚ × ℚ :=
  let s := c.members.foldl
    (fun acc m =>
      let w := sourceWeight m
      (acc.1 + m.latitude * w, acc.2.1 + m.longitude * w,
       acc.2.2.1 + m.depth_km * w, acc.2.2.2 + w))
    ((0 : ℚ), (0 : ℚ), (0 : ℚ), (0 : ℚ))
  if s.2.2.2 = 0 then (c.anchor.latitude, c.anchor.longitude, c.anchor.depth_km)
  else (s.1 / s.2.2.2, s.2.1 / s.2.2.2, s.2.2.1 / s.2.2.2)

/-! ## SHA-256 (FIPS 180-4), over byte lists, for `hashlib.sha256` -/

/-- `2^32`. -/
def M32 : ℕ := 4294967296

/-- 32-bit right rotation (arguments below `2^32`). -/
def rotr32 (n x : ℕ) : ℕ := (x >>> n) ||| ((x % (2 ^ n)) <<< (32 - n))

/-- 32-bit bitwise complement. -/
def not32 (x : ℕ) : ℕ := x ^^^ 4294967295

/-- SHA-256 `Ch`. -/
def shaCh (x y z : ℕ) : ℕ := (x &&& y) ^^^ (not32 x &&& z)

/-- SHA-256 `Maj`. -/
def shaMaj (x y z : ℕ) : ℕ := (x &&& y) ^^^ (x &&& z) ^^^ (y &&& z)

/-- SHA-256 `Σ₀`. -/
def bigS0 (x : ℕ) : ℕ := rotr32 2 x ^^^ rotr32 13 x ^^^ rotr32 22 x

/-- SHA-256 `Σ₁`. -/
def bigS1 (x : ℕ) : ℕ := rotr32 6 x ^^^ rotr32 11 x ^^^ rotr32 25 x

/-- SHA-256 `σ₀`. -/
def smallS0 (x : ℕ) : ℕ := rotr32 7 x ^^^ rotr32 18 x ^^^ (x >>> 3)

/-- SHA-256 `σ₁`. -/
def smallS1 (x : ℕ) : ℕ := rotr32 17 x ^^^ rotr32 19 x ^^^ (x >>> 10)

/-- The 64 SHA-256 round constants (decimal). -/
def sha256K : List ℕ :=
  [1116352408, 1899447441, 3049323471, 3921009573, 961987163,
   1508970993, 2453635748, 2870763221, 3624381080, 310598401,
   607225278, 1426881987, 1925078388, 2162078206, 2614888103,
   3248222580, 3835390401, 4022224774, 264347078, 604807628,
   770255983, 1249150122, 1555081692, 1996064986, 2554220882,
   2821834349, 2952996808, 3210313671, 3336571891, 3584528711,
   113926993, 338241895, 666307205, 773529912, 1294757372,
   1396182291, 1695183700, 1986661051, 2177026350, 2456956037,
   2730485921, 2820302411, 3259730800, 3345764771, 3516065817,
   3600352804, 4094571909, 275423344, 430227734, 506948616,
   659060556, 883997877, 958139571, 1322822218, 1537002063,
   1747873779, 1955562222, 2024104815, 2227730452, 2361852424,
   2428436474, 2756734187, 3204031479, 3329325298]

/-- The SHA-256 initial hash state (decimal). -/
def sha256H0 : List ℕ :=
  [1779033703, 3144134277, 1013904242, 2773480762,
   1359893119, 2600822924, 528734635, 1541459225]

/-- Big-endian byte decomposition of a value into `n` bytes. -/
def toBytesBE : ℕ → ℕ → List ℕ
  | 0, _ => []
  | n + 1, v => toBytesBE n (v / 256) ++ [v % 256]

/-- SHA-256 padding: `0x80`, zeros to 56 mod 64, the bit length in 8 bytes. -/
def padMessage (msg : List ℕ) : List ℕ :=
  let L := msg.length
  let k := (64 + 56 - (L + 1) % 64) % 64
  msg ++ [128] ++ List.replicate k 0 ++ toBytesBE 8 (8 * L)

/-- Big-endian 32-bit words from bytes. -/
def bytesToWords : List ℕ → List ℕ
  | b0 :: b1 :: b2 :: b3 :: rest =>
    (((b0 * 256 + b1) * 256 + b2) * 256 + b3) :: bytesToWords rest
  | _ => []

/-- Split a padded message into 64-byte blocks (fuel-driven, instantiated with
the message length). -/
def toBlocksFuel : ℕ → List ℕ → List (List ℕ)
  | 0, _ => []
  | _ + 1, [] => []
  | fuel + 1, bs => bs.take 64 :: toBlocksFuel fuel (bs.drop 64)

/-- Extend the 16-word schedule by `n` further words. -/
def extendWords : ℕ → List ℕ → List ℕ
  | 0, w => w
  | n + 1, w =>
    let l := w.length
    let nw := (smallS1 (w.getD (l - 2) 0) + w.getD (l - 7) 0 +
      smallS0 (w.getD (l - 15) 0) + w.getD (l - 16) 0) % M32
    extendWords n (w ++ [nw])

/-- The 64-word message schedule of a block. -/
def msgSchedule (block : List ℕ) : List ℕ := extendWords 48 (bytesToWords block)

/-- One SHA-256 round on the 8-word working state. -/
def shaRound (st : List ℕ) (kw : ℕ × ℕ) : List ℕ :=
  match st with
  | [a, b, c, d, e, f, g, h] =>
    let t1 := (h + bigS1 e + shaCh e f g + kw.1 + kw.2) % M32
    let t2 := (bigS0 a + shaMaj a b c) % M32
    [(t1 + t2) % M32, a, b, c, (d + t1) % M32, e, f, g]
  | other => other

/-- Compress one block into the hash state. -/
def compressBlock (hs : List ℕ) (block : List ℕ) : List ℕ :=
  let w := msgSchedule block
  let st := (sha256K.zip w).foldl shaRound hs
  (hs.zip st).map (fun p => (p.1 + p.2) % M32)

/-- SHA-256 digest (32 bytes) of a byte string. -/
def sha256Bytes (msg : List ℕ) : List ℕ :=
  let padded := padMessage msg
  ((toBlocksFuel padded.length padded).foldl compressBlock sha256H0).flatMap (toBytesBE 4)

/-- Two lowercase hex digits of a byte. -/
def byteToHex (b : ℕ) : List Char := [Nat.digitChar (b / 16), Nat.digitChar (b % 16)]

/-- Lowercase `hexdigest()` of the SHA-256 of a byte string. -/
def sha256HexBytes (msg : List ℕ) : String :=
  ((sha256Bytes msg).flatMap byteToHex).asString

/-- UTF-8 encoding of a character (CPython `str.encode()`). -/
def utf8EncodeChar (c : Char) : List ℕ :=
  let n := c.toNat
  if n < 128 then [n]
  else if n < 2048 then [192 + n / 64, 128 + n % 64]
  else if n < 65536 then [224 + n / 4096, 128 + n / 64 % 64, 128 + n % 64]
  else [240 + n / 262144, 128 + n / 4096 % 64, 128 + n / 64 % 64, 128 + n % 64]

/-- UTF-8 encoding of a string. -/
def utf8Encode (s : String) : List ℕ := s.toList.flatMap utf8EncodeChar

/-- `hashlib.sha256(s.encode()).hexdigest()`. -/
def sha256HexOfString (s : String) : String := sha256HexBytes (utf8Encode s)

/-- `deduplicator._compute_unified_id`: sort member uids ascending, join with
`"|"`, SHA-256, first 16 hex characters, `"UE-"` prefix. -/
def _compute_unified_id (c : Cluster) : String :=
  "UE-" ++ pyTake (sha256HexOfString (joinPipe (sortedUids c))) 16

/-! ## Cluster quality metrics and the unified row (`gcp/dedup/dedup_pipeline.py`)

`run_dedup_pipeline` imports `_compute_quality_metrics` from
`quake_stream.deduplicator` and reads the keys `magnitude_std`,
`location_spread_km` and `source_agreement_score` from its result, but no
definition of `_compute_quality_metrics` exists anywhere in the repository
sources.  The function is therefore modelled from the specification
(§4.7, Quality metrics). -/

/-- Modelled from the spec: `magnitude_std` of the missing
`_compute_quality_metrics` — "population standard deviation of member
magnitudes (0 if single member)". -/
noncomputable def magnitudeStd (c : Cluster) : ℝ :=
  let mags := c.members.map (fun m => (m.magnitude_value : ℝ))
  let n := c.members.length
  if n = 0 then 0
  else
    let mean := mags.sum / n
    Real.sqrt ((mags.map (fun x => (x - mean) ^ 2)).sum / n)

/-- All unordered pairs of distinct positions of a list. -/
def allPairs {α : Type} : List α → List (α × α)
  | [] => []
  | x :: xs => xs.map (fun y => (x, y)) ++ allPairs xs

/-- Modelled from the spec: `location_spread_km` of the missing
`_compute_quality_metrics` — "maximum pairwise Haversine distance among
members (0 if single member)". -/
noncomputable def locationSpreadKm (c : Cluster) : ℝ :=
  ((allPairs c.members).map (fun p =>
    haversine_km (p.1.latitude : ℝ) (p.1.longitude : ℝ)
      (p.2.latitude : ℝ) (p.2.longitude : ℝ))).foldl max 0

/-- `len(set(m.source for m in cluster.members))`, as computed in the row
assembly of `run_dedup_pipeline`. -/
def distinctSources (c : Cluster) : ℕ := ((c.members.map (fun m => m.source)).dedup).length

/-- Modelled from the spec: `source_agreement_score` of the missing
`_compute_quality_metrics` — "distinct sources / members when more than one
member, else 1.0". -/
noncomputable def sourceAgreement (c : Cluster) : ℝ :=
  if 1 < c.members.length then (distinctSources c : ℝ) / (c.members.length : ℝ) else 1

/-- The three quality values of a unified row. -/
structure QualityMetrics where
  magnitude_std : ℝ
  location_spread_km : ℝ
  source_agreement_score : ℝ

/-- Modelled from the spec: the missing
`quake_stream.deduplicator._compute_quality_metrics` (see the section
comment). -/
noncomputable def _compute_quality_metrics (c : Cluster) : QualityMetrics :=
  ⟨magnitudeStd c, locationSpreadKm c, sourceAgreement c⟩

/-- One unified row as assembled by `run_dedup_pipeline` (lines 107–132);
the `isoformat` string rendering of timestamps and the `created_at` /
`updated_at` wall-clock stamps are not modelled. -/
structure UnifiedRow where
  unified_event_id : String
  origin_time_utc : ℚ
  latitude : ℚ
  longitude : ℚ
  depth_km : ℚ
  magnitude_value : ℚ
  magnitude_type : String
  place : Option String
  region : Option String
  status : String
  num_sources : ℕ
  preferred_source : String
  source_event_uids : List String
  magnitude_std : ℝ
  location_spread_km : ℝ
  source_agreement_score : ℝ

/-- The per-cluster row assembly of `run_dedup_pipeline`. -/
noncomputable def buildUnifiedRow (c : Cluster) : UnifiedRow :=
  let preferred := _select_preferred c
  let unifiedId := _compute_unified_id c
  let wm := _weighted_mean c
  let metrics := _compute_quality_metrics c
  { unified_event_id := unifiedId, origin_time_utc := preferred.origin_time_utc,
    latitude := wm.1, longitude := wm.2.1, depth_km := wm.2.2,
    magnitude_value := preferred.magnitude_value, magnitude_type := preferred.magnitude_type,
    place := preferred.place, region := preferred.region, status := preferred.status,
    num_sources := distinctSources c, preferred_source := preferred.source,
    source_event_uids := c.members.map (fun m => m.event_uid),
    magnitude_std := metrics.magnitude_std,
    location_spread_km := metrics.location_spread_km,
    source_agreement_score := metrics.source_agreement_score }

/-! ## Fetch retry loop (`gcp/ingester/pipeline.py::_fetch_source`)

The loop `for attempt in range(config.max_retries + 1)` issues one HTTP
attempt per iteration.  A 204 returns an empty body for the source's format;
`resp.raise_for_status()` raises `httpx.HTTPStatusError` for EVERY status of
400 and above; the `except (httpx.HTTPStatusError, httpx.RequestError)`
clause catches that together with transport errors and, when attempts remain,
sleeps `retry_backoff_base ** attempt` and continues.  After the loop a
`RuntimeError` is raised (`result = none` here).
`FDSNClient._request_with_retry` in `clients/fdsn_client.py` has the same
retry structure (its additional rate-limiter waits and its slightly different
204 GeoJSON body are not modelled). -/

/-- The retry-relevant fields of a `SourceConfig`. -/
structure FetchConfig where
  max_retries : ℕ
  retry_backoff_base : ℚ
  format : String
deriving DecidableEq

/-- What one HTTP attempt produces: a response with a status code and body,
or a transport error (`httpx.RequestError`). -/
inductive AttemptOutcome where
  | response (code : ℕ) (body : String)
  | transportError
deriving DecidableEq

/-- The observable behaviour of one `_fetch_source` run: the returned body
(`none` = the final `RuntimeError`), the number of HTTP attempts made, and
the backoff sleeps performed, in order. -/
structure FetchTrace where
  result : Option String
  attemptsMade : ℕ
  sleeps : List ℚ
deriving DecidableEq

/-- The 204 empty body per format (`pipeline.py` line 75). -/
def emptyBodyFor (format : String) : String :=
  if format = "fdsn_text" then "" else "\x7b\"features\":[]\x7d"

/-- The retry loop; the fuel is the remaining loop iterations, `i` the
current attempt index. -/
def fetchLoop (cfg : FetchConfig) (attempts : ℕ → AttemptOutcome) :
    ℕ → ℕ → List ℚ → FetchTrace
  | 0, i, sleeps => ⟨none, i, sleeps⟩
  | fuel + 1, i, sleeps =>
    match attempts i with
    | .transportError =>
      fetchLoop cfg attempts fuel (i + 1)
        (if i < cfg.max_retries then sleeps ++ [cfg.retry_backoff_base ^ i] else sleeps)
    | .response code body =>
      if code = 204 then ⟨some (emptyBodyFor cfg.format), i + 1, sleeps⟩
      else if code < 400 then ⟨some body, i + 1, sleeps⟩
      else
        fetchLoop cfg attempts fuel (i + 1)
          (if i < cfg.max_retries then sleeps ++ [cfg.retry_backoff_base ^ i] else sleeps)

/-- `_fetch_source` for one source, as a function of the per-attempt
outcomes. -/
def fetchSource (cfg : FetchConfig) (attempts : ℕ → AttemptOutcome) : FetchTrace :=
  fetchLoop cfg attempts (cfg.max_retries + 1) 0 []

/-! ## Theorems -/

/-! ### The match score against the specification's closed formula (C5) -/

/-- The similarity score exactly as §4.6 of the specification words it: zero
when any of the three gates trips, otherwise the weighted sum without inner
clamping. -/
noncomputable def specMatchScore (a b : EventRecord) : ℝ :=
  let dt := |(a.origin_time_utc : ℝ) - (b.origin_time_utc : ℝ)|
  let dkm := haversine_km (a.latitude : ℝ) (a.longitude : ℝ) (b.latitude : ℝ) (b.longitude : ℝ)
  let dmag := |(a.magnitude_value : ℝ) - (b.magnitude_value : ℝ)|
  if dt > 30 ∨ dkm > 100 ∨ dmag > 0.5 then 0
  else 0.4 * (1 - dt / 30) + 0.4 * (1 - dkm / 100) + 0.2 * (1 - dmag / 0.5)

/-- C5.  `compute_match_score` returns 0 whenever `dt > 30` or `dkm > 100` or
`dmag > 0.5`, and otherwise exactly
`0.4·(1 − dt/30) + 0.4·(1 − dkm/100) + 0.2·(1 − dmag/0.5)` — i.e. it agrees
with the specification's formula on every pair of records (the source's inner
`max(0.0, ·)` clamps are redundant in the unguarded branch). -/
theorem compute_match_score_eq_spec (a b : EventRecord) :
    compute_match_score a b = specMatchScore a b := by
  unfold compute_match_score specMatchScore
  unfold MAX_TIME_DIFF_SEC MAX_DISTANCE_KM MAX_MAG_DIFF
  set dt := |(a.origin_time_utc : ℝ) - (b.origin_time_utc : ℝ)| with hdt
  set dkm := haversine_km (a.latitude : ℝ) (a.longitude : ℝ) (b.latitude : ℝ) (b.longitude : ℝ)
    with hdkm
  set dmag := |(a.magnitude_value : ℝ) - (b.magnitude_value : ℝ)| with hdmag
  by_cases h1 : dt > 30
  · simp [h1]
  · by_cases h2 : dkm > 100
    · simp [h1, h2]
    · by_cases h3 : dmag > (0.5 : ℝ)
      · simp [h1, h2, h3]
      · have e1 : max 0 (1 - dt / 30) = 1 - dt / 30 := by
          apply max_eq_right
          have := le_of_not_lt h1
          linarith [(div_le_one (by norm_num : (0:ℝ) < 30)).mpr this]
        have e2 : max 0 (1 - dkm / 100) = 1 - dkm / 100 := by
          apply max_eq_right
          have := le_of_not_lt h2
          linarith [(div_le_one (by norm_num : (0:ℝ) < 100)).mpr this]
        have e3 : max 0 (1 - dmag / 0.5) = 1 - dmag / 0.5 := by
          apply max_eq_right
          have := le_of_not_lt h3
          linarith [(div_le_one (by norm_num : (0:ℝ) < 0.5)).mpr this]
        simp [h1, h2, h3, e1, e2, e3]

/-! ### The validator's future-time tolerance (C7) -/

/-- An otherwise fully valid event whose origin time is 23:45 UTC. -/
def evFutureQuarterHour : NormalizedEvent :=
  { event_uid := "usgs:x1", source := "usgs", source_event_id := "x1",
    origin_time_utc := ⟨2024, 1, 15, 23, 45, 0, 0, some 0⟩,
    latitude := 35, longitude := -120, depth_km := 10, magnitude_value := 5,
    magnitude_type := "ml", status := "reviewed",
    fetched_at := ⟨2024, 1, 15, 23, 30, 0, 0, some 0⟩ }

/-- A wall clock of 23:30 UTC the same day. -/
def nowHour23 : PyDateTime := ⟨2024, 1, 15, 23, 30, 0, 0, some 0⟩

/-- C7.  At 23:30 UTC the validator rejects an event timestamped only 15
minutes in the future as "in the future": `now.replace(hour=now.hour + 1 if
now.hour < 23 else 23)` is `now` itself whenever `now.hour = 23`, so the
documented one-hour tolerance collapses to zero during the last hour of every
day, contradicting the source's own comment ("not in the future (with 1-hour
tolerance)") and the specification.  The event violates no other rule. -/
theorem validate_rejects_near_future_at_hour23 :
    validate evFutureQuarterHour nowHour23 =
      ["origin_time_utc 2024-01-15 23:45:00+00:00 is in the future"] ∧
    evFutureQuarterHour.origin_time_utc.utcEpochMicros - nowHour23.utcEpochMicros =
      15 * 60 * 1000000 ∧
    futureCutoff nowHour23 = nowHour23 := by
  refine ⟨by decide, by decide, by decide⟩

/-! ### The fetch retry loop (C6) -/

/-- An attempt that the loop retries: a transport error, or a response whose
status is 400 or above (every such status raises `HTTPStatusError`, which the
`except` clause catches — there is no carve-out for 4xx other than 429). -/
def retriedFailure : AttemptOutcome → Prop
  | .transportError => True
  | .response code _ => 400 ≤ code

instance : DecidablePred retriedFailure := fun o => by
  cases o <;> unfold retriedFailure <;> infer_instance

/-- Trace shape of the retry loop, by induction on the remaining fuel. -/
theorem fetchLoop_trace (cfg : FetchConfig) (attempts : ℕ → AttemptOutcome) :
    ∀ (fuel i : ℕ) (s0 : List ℚ), i + fuel = cfg.max_retries + 1 →
    (i ≤ (fetchLoop cfg attempts fuel i s0).attemptsMade) ∧
    (0 < fuel → i < (fetchLoop cfg attempts fuel i s0).attemptsMade) ∧
    ((fetchLoop cfg attempts fuel i s0).attemptsMade ≤ cfg.max_retries + 1) ∧
    ((fetchLoop cfg attempts fuel i s0).sleeps = s0 ++
      (List.range' i ((fetchLoop cfg attempts fuel i s0).attemptsMade - 1 - i)).map
        (fun j => cfg.retry_backoff_base ^ j)) ∧
    (∀ j, i ≤ j → j + 1 < (fetchLoop cfg attempts fuel i s0).attemptsMade →
      retriedFailure (attempts j)) := by
  intro fuel
  induction fuel with
  | zero =>
    intro i s0 hif
    refine ⟨le_refl _, by omega, by simp [fetchLoop]; omega, ?_, ?_⟩
    · simp [fetchLoop]
    · intro j hj hj2
      simp [fetchLoop] at hj2
      omega
  | succ fuel ih =>
    intro i s0 hif
    have hmr : i ≤ cfg.max_retries := by omega
    -- the retry continuation, shared by the transport and ≥400 cases
    have hcont : ∀ (hfail : retriedFailure (attempts i)),
        (i ≤ (fetchLoop cfg attempts fuel (i + 1)
            (if i < cfg.max_retries then s0 ++ [cfg.retry_backoff_base ^ i] else s0)).attemptsMade) ∧
        (0 < fuel + 1 → i < (fetchLoop cfg attempts fuel (i + 1)
            (if i < cfg.max_retries then s0 ++ [cfg.retry_backoff_base ^ i] else s0)).attemptsMade) ∧
        ((fetchLoop cfg attempts fuel (i + 1)
            (if i < cfg.max_retries then s0 ++ [cfg.retry_backoff_base ^ i] else s0)).attemptsMade ≤
          cfg.max_retries + 1) ∧
        ((fetchLoop cfg attempts fuel (i + 1)
            (if i < cfg.max_retries then s0 ++ [cfg.retry_backoff_base ^ i] else s0)).sleeps = s0 ++
          (List.range' i ((fetchLoop cfg attempts fuel (i + 1)
              (if i < cfg.max_retries then s0 ++ [cfg.retry_backoff_base ^ i] else s0)).attemptsMade
              - 1 - i)).map (fun j => cfg.retry_backoff_base ^ j)) ∧
        (∀ j, i ≤ j → j + 1 < (fetchLoop cfg attempts fuel (i + 1)
            (if i < cfg.max_retries then s0 ++ [cfg.retry_backoff_base ^ i] else s0)).attemptsMade →
          retriedFailure (attempts j)) := by
      intro hfail
      obtain ⟨h1, h2, h3, h4, h5⟩ := ih (i + 1)
        (if i < cfg.max_retries then s0 ++ [cfg.retry_backoff_base ^ i] else s0) (by omega)
      set t := fetchLoop cfg attempts fuel (i + 1)
        (if i < cfg.max_retries then s0 ++ [cfg.retry_backoff_base ^ i] else s0)
      refine ⟨by omega, fun _ => by omega, h3, ?_, ?_⟩
      · rcases Nat.eq_zero_or_pos fuel with hf0 | hfpos
        · subst hf0
          have ht : t.attemptsMade = i + 1 := by simp only [t, fetchLoop]
          have hle : ¬ i < cfg.max_retries := by omega
          rw [h4, ht, if_neg hle]
          have h0 : i + 1 - 1 - i = 0 := by omega
          have h0' : i + 1 - 1 - (i + 1) = 0 := by omega
          rw [h0, h0']
          simp
        · have hlt : i < cfg.max_retries := by omega
          have hia : i + 1 < t.attemptsMade := h2 hfpos
          rw [h4]
          simp only [hlt, if_pos]
          rw [List.append_assoc]
          congr 1
          have : t.attemptsMade - 1 - i = (t.attemptsMade - 1 - (i + 1)) + 1 := by omega
          rw [this, List.range'_succ]
          simp
      · intro j hij hj2
        rcases Nat.eq_or_lt_of_le hij with rfl | hlt
        · exact hfail
        · exact h5 j (by omega) hj2
    match hat : attempts i with
    | .transportError =>
      have := hcont (by rw [hat]; trivial)
      simpa only [fetchLoop, hat] using this
    | .response code body =>
      by_cases h204 : code = 204
      · subst h204
        refine ⟨by simp [fetchLoop, hat], by simp [fetchLoop, hat], ?_, ?_, ?_⟩
        · simp [fetchLoop, hat]; omega
        · simp [fetchLoop, hat]
        · intro j hj hj2
          simp [fetchLoop, hat] at hj2
          omega
      · by_cases hok : code < 400
        · refine ⟨by simp [fetchLoop, hat, h204, hok], by simp [fetchLoop, hat, h204, hok], ?_, ?_, ?_⟩
          · simp [fetchLoop, hat, h204, hok]; omega
          · simp [fetchLoop, hat, h204, hok]
          · intro j hj hj2
            simp [fetchLoop, hat, h204, hok] at hj2
            omega
        · have := hcont (by rw [hat]; unfold retriedFailure; omega)
          simpa only [fetchLoop, hat, h204, hok, if_neg, if_false] using this

/-- C6 (amended).  A fetch makes at most `max_retries + 1` HTTP attempts and
sleeps exactly `retry_backoff_base ^ i` between attempts `i` and `i + 1`; an
attempt is retried exactly when it was a transport error or an HTTP response
with status ≥ 400 — that is, every 4xx is retried (including e.g. 404), not
only 429 and 5xx as the specification claims. -/
theorem fetchSource_retry_discipline (cfg : FetchConfig) (attempts : ℕ → AttemptOutcome) :
    (fetchSource cfg attempts).attemptsMade ≤ cfg.max_retries + 1 ∧
    (fetchSource cfg attempts).sleeps =
      (List.range ((fetchSource cfg attempts).attemptsMade - 1)).map
        (fun j => cfg.retry_backoff_base ^ j) ∧
    (∀ j, j + 1 < (fetchSource cfg attempts).attemptsMade → retriedFailure (attempts j)) := by
  obtain ⟨h1, h2, h3, h4, h5⟩ :=
    fetchLoop_trace cfg attempts (cfg.max_retries + 1) 0 [] (by omega)
  refine ⟨h3, ?_, fun j hj => h5 j (Nat.zero_le j) hj⟩
  unfold fetchSource
  rw [h4]
  simp [List.range_eq_range']

/-- The configuration of the counterexample run: 3 retries, backoff base 2. -/
def cfg404 : FetchConfig := ⟨3, 2, "geojson"⟩

/-- Attempt outcomes: the first attempt gets HTTP 404, the second succeeds. -/
def attempts404 : ℕ → AttemptOutcome :=
  fun i => if i = 0 then .response 404 "not found" else .response 200 "ok"

/-- C6 (counterexample).  After an HTTP 404 — a 4xx other than 429 — the
fetcher sleeps `2 ^ 0 = 1` second and makes a second attempt, returning its
body: the claim that non-429 4xx responses are never retried is false. -/
theorem fetchSource_retries_after_404 :
    fetchSource cfg404 attempts404 = ⟨some "ok", 2, [1]⟩ ∧
    attempts404 0 = .response 404 "not found" := by
  exact ⟨by decide, by decide⟩

/-- C6 (witness).  The amended retry discipline at the concrete 404 run. -/
theorem fetchSource_retry_discipline_witness :
    (fetchSource cfg404 attempts404).attemptsMade ≤ cfg404.max_retries + 1 ∧
    (fetchSource cfg404 attempts404).sleeps =
      (List.range ((fetchSource cfg404 attempts404).attemptsMade - 1)).map
        (fun j => cfg404.retry_backoff_base ^ j) ∧
    (∀ j, j + 1 < (fetchSource cfg404 attempts404).attemptsMade →
      retriedFailure (attempts404 j)) :=
  fetchSource_retry_discipline cfg404 attempts404

/-! ### Preferred-member selection (C3) -/

/-- CPython `min(seq, key=k)` keeps the first element attaining the minimal
key: the result sits at some position `i`, every earlier element has a
strictly larger key, and no element has a smaller key. -/
theorem pyMinBy_spec (k : EventRecord → ℕ) :
    ∀ (xs : List EventRecord) (x : EventRecord),
    ∃ i, (x :: xs).get? i = some (pyMinBy k x xs) ∧
      (∀ j y, j < i → (x :: xs).get? j = some y → k (pyMinBy k x xs) < k y) ∧
      (∀ m ∈ x :: xs, k (pyMinBy k x xs) ≤ k m) := by
  intro xs
  induction xs with
  | nil =>
    intro x
    refine ⟨0, rfl, by omega, ?_⟩
    intro m hm
    rw [List.mem_singleton.mp hm]
    exact le_refl _
  | cons a xs ih =>
    intro x
    have hfold : pyMinBy k x (a :: xs) = pyMinBy k (if k a < k x then a else x) xs := rfl
    obtain ⟨i', h1, h2, h3⟩ := ih (if k a < k x then a else x)
    by_cases hax : k a < k x
    · rw [if_pos hax] at h1 h2 h3
      rw [hfold, if_pos hax]
      have hra : k (pyMinBy k a xs) ≤ k a := h3 a (List.mem_cons_self a xs)
      refine ⟨i' + 1, h1, ?_, ?_⟩
      · intro j y hj hy
        match j, hy with
        | 0, hy =>
          cases Option.some.inj hy
          omega
        | j' + 1, hy => exact h2 j' y (by omega) hy
      · intro m hm
        rcases List.mem_cons.mp hm with rfl | hm'
        · omega
        · exact h3 m hm'
    · rw [if_neg hax] at h1 h2 h3
      rw [hfold, if_neg hax]
      rcases i' with _ | j'
      · have hr : pyMinBy k x xs = x := (Option.some.inj h1).symm
        refine ⟨0, by simp [hr], by omega, ?_⟩
        intro m hm
        rw [hr]
        rcases List.mem_cons.mp hm with rfl | hm'
        · exact le_refl _
        · rcases List.mem_cons.mp hm' with rfl | hm''
          · omega
          · rw [← hr]; exact h3 m (List.mem_cons_of_mem x hm'')
      · have hrxlt : k (pyMinBy k x xs) < k x := h2 0 x (by omega) rfl
        refine ⟨j' + 2, h1, ?_, ?_⟩
        · intro j y hj hy
          match j, hy with
          | 0, hy =>
            cases Option.some.inj hy
            omega
          | 1, hy =>
            cases Option.some.inj hy
            omega
          | j'' + 2, hy => exact h2 (j'' + 1) y (by omega) hy
        · intro m hm
          rcases List.mem_cons.mp hm with rfl | hm'
          · omega
          · rcases List.mem_cons.mp hm' with rfl | hm''
            · omega
            · exact h3 m (List.mem_cons_of_mem x hm'')

/-- C3 (amended).  For every non-empty cluster the preferred member is drawn
from the reviewed members when any exist (else from all members), has the
lowest source-priority rank among the candidates, and on rank ties is the
FIRST such candidate in member order — not the one with the lexicographically
smallest `event_uid`. -/
theorem select_preferred_first_minimal_rank (c : Cluster) (h : c.members ≠ []) :
    (∃ i, (preferredCandidates c).get? i = some (_select_preferred c) ∧
      (∀ j y, j < i → (preferredCandidates c).get? j = some y →
        source_rank (_select_preferred c) < source_rank y) ∧
      (∀ m ∈ preferredCandidates c, source_rank (_select_preferred c) ≤ source_rank m)) ∧
    (∀ m ∈ preferredCandidates c, m ∈ c.members) ∧
    ((∃ m ∈ c.members, m.status = "reviewed") →
      ∀ m ∈ preferredCandidates c, m.status = "reviewed") := by
  have hcand : preferredCandidates c ≠ [] := by
    unfold preferredCandidates
    split
    · exact h
    · next hrev =>
      intro hnil
      exact hrev (by simp [hnil])
  refine ⟨?_, ?_, ?_⟩
  · match hc : preferredCandidates c, hcand with
    | x :: xs, _ =>
      have hsel : _select_preferred c = pyMinBy source_rank x xs := by
        unfold _select_preferred
        rw [hc]
      rw [hsel]
      exact pyMinBy_spec source_rank xs x
  · intro m hm
    unfold preferredCandidates at hm
    split at hm
    · exact hm
    · exact (List.mem_filter.mp hm).1
  · intro hex m hm
    unfold preferredCandidates at hm
    obtain ⟨r, hr, hrs⟩ := hex
    split at hm
    · next hempty =>
      exfalso
      have hmem : r ∈ c.members.filter (fun m => decide (m.status = "reviewed")) :=
        List.mem_filter.mpr ⟨hr, by simp [hrs]⟩
      rw [List.isEmpty_iff] at hempty
      rw [hempty] at hmem
      exact absurd hmem (List.not_mem_nil r)
    · have := (List.mem_filter.mp hm).2
      simpa using this

/-- Two automatic members of the same source, inserted with the
lexicographically larger uid first. -/
def recPrefZ : EventRecord :=
  { event_uid := "usgs:z", source := "usgs", origin_time_utc := 0, latitude := 0,
    longitude := 0, depth_km := 0, magnitude_value := 0, magnitude_type := "ml" }

/-- Same record but with the lexicographically smaller uid, listed second. -/
def recPrefA : EventRecord := { recPrefZ with event_uid := "usgs:a" }

/-- A cluster whose two members tie on status and source priority. -/
def tieCluster : Cluster := { members := [recPrefZ, recPrefA] }

/-- C3 (counterexample).  On a tie of status and source priority CPython
`min` keeps the first member in insertion order: the selected uid is
`"usgs:z"` although `"usgs:a"` is lexicographically smaller — the claimed
uid tie-break does not exist in the code. -/
theorem select_preferred_tie_not_lexicographic :
    (_select_preferred tieCluster).event_uid = "usgs:z" ∧
    source_rank recPrefZ = source_rank recPrefA ∧
    recPrefZ.status = recPrefA.status ∧
    strLe "usgs:a" "usgs:z" ∧ ("usgs:a" : String) ≠ "usgs:z" := by
  refine ⟨by decide, by decide, by decide, by decide, by decide⟩

/-- A one-member cluster for the witness run. -/
def loneCluster : Cluster := { members := [recPrefA] }

/-- C3 (witness).  The amended selection discipline at a concrete cluster. -/
theorem select_preferred_first_minimal_rank_witness :
    (∃ i, (preferredCandidates loneCluster).get? i = some (_select_preferred loneCluster) ∧
      (∀ j y, j < i → (preferredCandidates loneCluster).get? j = some y →
        source_rank (_select_preferred loneCluster) < source_rank y) ∧
      (∀ m ∈ preferredCandidates loneCluster,
        source_rank (_select_preferred loneCluster) ≤ source_rank m)) ∧
    (∀ m ∈ preferredCandidates loneCluster, m ∈ loneCluster.members) ∧
    ((∃ m ∈ loneCluster.members, m.status = "reviewed") →
      ∀ m ∈ preferredCandidates loneCluster, m.status = "reviewed") :=
  select_preferred_first_minimal_rank loneCluster (by decide)

/-! ### The unified event id (C4) -/

theorem charToNat_inj {a b : Char} (h : a.toNat = b.toNat) : a = b := by
  have hv : a.val = b.val := by
    apply UInt32.eq_of_val_eq
    exact Fin.eq_of_val_eq h
  exact Char.eq_of_val_eq hv

theorem lexLeChars_total : ∀ as bs : List Char,
    lexLeChars as bs = true ∨ lexLeChars bs as = true := by
  intro as
  induction as with
  | nil => intro bs; left; rfl
  | cons a as ih =>
    intro bs
    cases bs with
    | nil => right; rfl
    | cons b bs =>
      unfold lexLeChars
      by_cases h1 : a.toNat < b.toNat
      · left; simp [h1]
      · by_cases h2 : b.toNat < a.toNat
        · right; simp [h1, h2]
        · simp [h1, h2]
          exact ih bs

theorem lexLeChars_trans : ∀ as bs cs : List Char,
    lexLeChars as bs = true → lexLeChars bs cs = true → lexLeChars as cs = true := by
  intro as
  induction as with
  | nil => intro bs cs _ _; rfl
  | cons a as ih =>
    intro bs cs h1 h2
    cases bs with
    | nil => simp [lexLeChars] at h1
    | cons b bs =>
      cases cs with
      | nil => simp [lexLeChars] at h2
      | cons c cs =>
        unfold lexLeChars at h1 h2 ⊢
        by_cases hab : a.toNat < b.toNat
        · by_cases hbc : b.toNat < c.toNat
          · simp [show a.toNat < c.toNat by omega]
          · by_cases hcb : c.toNat < b.toNat
            · simp [hbc, hcb] at h2
            · simp [show a.toNat < c.toNat by omega]
        · by_cases hba : b.toNat < a.toNat
          · simp [hab, hba] at h1
          · simp only [hab, hba, if_false] at h1
            by_cases hbc : b.toNat < c.toNat
            · simp [show a.toNat < c.toNat by omega]
            · by_cases hcb : c.toNat < b.toNat
              · simp [hbc, hcb] at h2
              · simp only [hbc, hcb, if_false] at h2
                have hac1 : ¬ a.toNat < c.toNat := by omega
                have hac2 : ¬ c.toNat < a.toNat := by omega
                simp only [hac1, hac2, if_false]
                exact ih bs cs h1 h2

theorem lexLeChars_antisymm : ∀ as bs : List Char,
    lexLeChars as bs = true → lexLeChars bs as = true → as = bs := by
  intro as
  induction as with
  | nil =>
    intro bs _ h2
    cases bs with
    | nil => rfl
    | cons b bs => simp [lexLeChars] at h2
  | cons a as ih =>
    intro bs h1 h2
    cases bs with
    | nil => simp [lexLeChars] at h1
    | cons b bs =>
      unfold lexLeChars at h1 h2
      by_cases hab : a.toNat < b.toNat
      · have hba : ¬ b.toNat < a.toNat := by omega
        simp [hab, hba] at h2
      · by_cases hba : b.toNat < a.toNat
        · simp [hab, hba] at h1
        · simp only [hab, hba, if_false] at h1 h2
          rw [charToNat_inj (show a.toNat = b.toNat by omega), ih bs h1 h2]

instance : IsTotal String strLe :=
  ⟨fun a b => lexLeChars_total a.toList b.toList⟩

instance : IsTrans String strLe :=
  ⟨fun _ _ _ h1 h2 => lexLeChars_trans _ _ _ h1 h2⟩

instance : IsAntisymm String strLe :=
  ⟨fun a b h1 h2 => by
    cases a; cases b
    have := lexLeChars_antisymm _ _ h1 h2
    simp [String.toList] at this
    rw [this]⟩

/-- C4 (amended).  `unified_event_id` is `"UE-"` plus the first 16 hex
characters of the SHA-256 of the member `event_uid`s sorted ascending and
joined with `"|"` (that is its definition), and it is a deterministic
function of the MULTISET of member uids: any two clusters whose member-uid
lists are permutations of one another get the same id.  It does not change
for every change of membership, however: memberships with equal joined
strings (a uid containing `"|"`) or colliding truncated hashes share an id. -/
theorem unified_id_membership_invariant (c1 c2 : Cluster)
    (h : (c1.members.map (fun m => m.event_uid)).Perm
      (c2.members.map (fun m => m.event_uid))) :
    _compute_unified_id c1 = _compute_unified_id c2 := by
  have hs : sortedUids c1 = sortedUids c2 := by
    apply List.eq_of_perm_of_sorted (r := strLe)
    · exact (List.perm_insertionSort _ _).trans
        (h.trans (List.perm_insertionSort strLe _).symm)
    · exact List.sorted_insertionSort _ _
    · exact List.sorted_insertionSort _ _
  unfold _compute_unified_id
  rw [hs]

/-- A minimal event record carrying only a uid, for id computations. -/
def recU (uid : String) : EventRecord :=
  { event_uid := uid, source := "usgs", origin_time_utc := 0, latitude := 0,
    longitude := 0, depth_km := 0, magnitude_value := 0, magnitude_type := "ml" }

/-- One member whose uid contains the join separator. -/
def clusterPipeOne : Cluster := { members := [recU "a|b"] }

/-- Two members whose uids join to the same string. -/
def clusterPipeTwo : Cluster := { members := [recU "a", recU "b"] }

/-- C4 (counterexample).  The memberships `{"a|b"}` and `{"a", "b"}` differ,
yet their sorted-and-joined uid strings are both `"a|b"`, so the two clusters
receive the SAME unified id: the id does not change "whenever the membership
set changes". -/
theorem unified_id_collides_on_pipe_uid :
    _compute_unified_id clusterPipeOne = _compute_unified_id clusterPipeTwo ∧
    ¬ (clusterPipeOne.members.map (fun m => m.event_uid)).Perm
      (clusterPipeTwo.members.map (fun m => m.event_uid)) := by
  constructor
  · have h : joinPipe (sortedUids clusterPipeOne) = joinPipe (sortedUids clusterPipeTwo) := by
      decide
    unfold _compute_unified_id
    rw [h]
  · decide

/-- The same two-member cluster in swapped insertion order. -/
def clusterOrderA : Cluster := { members := [recU "usgs:b", recU "usgs:a"] }

/-- The reference order. -/
def clusterOrderB : Cluster := { members := [recU "usgs:a", recU "usgs:b"] }

/-- C4 (witness).  Permuting the members leaves the unified id unchanged. -/
theorem unified_id_membership_invariant_witness :
    _compute_unified_id clusterOrderA = _compute_unified_id clusterOrderB :=
  unified_id_membership_invariant clusterOrderA clusterOrderB (by decide)

/-! ### Parser field extraction (used by C8 and C10) -/

theorem bindOk {α β : Type} {x : Except PyErr α} {f : α → Except PyErr β} {b : β}
    (h : x >>= f = .ok b) : ∃ a, x = .ok a ∧ f a = .ok b := by
  cases x with
  | error e => simp [Bind.bind, Except.bind] at h
  | ok a => exact ⟨a, rfl, by simpa [Bind.bind, Except.bind] using h⟩

theorem pyToNum_ok {v : JValue} {q : ℚ} (h : pyToNum v = .ok q) : v = .num q := by
  cases v <;> simp [pyToNum] at h
  rw [h]

/-- What a successful USGS feature parse pins down about its event: the
magnitude and type come from the defaulted `or`-chains and the longitude is
the normalization of the numeric first coordinate. -/
theorem usgsParseFeature_ok {f : Feature} {fa : PyDateTime} {e : NormalizedEvent}
    (h : usgsParseFeature f fa = .ok e) :
    ∃ sid mag magType lonRaw,
      pyFeatureId f = .ok sid ∧
      pyFloat (jvOr (pyGet f.properties "mag") (.num 0)) = .ok mag ∧
      pyLowerJ (jvOr (pyGet f.properties "magType") (.str "ml")) = .ok magType ∧
      pyIndex f.coordinates 0 = .ok (.num lonRaw) ∧
      e.longitude = normalizeLongitude lonRaw ∧
      e.magnitude_value = mag ∧
      e.magnitude_type = magType ∧
      e.event_uid = "usgs:" ++ sid := by
  unfold usgsParseFeature at h
  obtain ⟨sid, hsid, h⟩ := bindOk h
  try dsimp only at h
  obtain ⟨magType, hmt, h⟩ := bindOk h
  try dsimp only at h
  obtain ⟨timeJ, htj, h⟩ := bindOk h
  try dsimp only at h
  obtain ⟨timeMs, htm, h⟩ := bindOk h
  try dsimp only at h
  obtain ⟨updatedAt, hup, h⟩ := bindOk h
  try dsimp only at h
  obtain ⟨statusRaw, hst, h⟩ := bindOk h
  try dsimp only at h
  obtain ⟨lonJ, hlj, h⟩ := bindOk h
  try dsimp only at h
  obtain ⟨lonRaw, hlr, h⟩ := bindOk h
  try dsimp only at h
  obtain ⟨latJ, hltj, h⟩ := bindOk h
  try dsimp only at h
  obtain ⟨lat, hlat, h⟩ := bindOk h
  try dsimp only at h
  obtain ⟨depthJ, hdj, h⟩ := bindOk h
  try dsimp only at h
  obtain ⟨depth, hdep, h⟩ := bindOk h
  try dsimp only at h
  obtain ⟨mag, hmag, h⟩ := bindOk h
  try dsimp only at h
  obtain ⟨place, hpl, h⟩ := bindOk h
  try dsimp only at h
  have he : e = _ := (Except.ok.inj h).symm
  refine ⟨sid, mag, magType, lonRaw, hsid, hmag, hmt, ?_, ?_, ?_, ?_, ?_⟩
  · rw [hlj, pyToNum_ok hlr]
  · rw [he]
  · rw [he]
  · rw [he]
  · rw [he]

/-- What a successful EMSC feature parse pins down about its event. -/
theorem emscParseFeature_ok {f : Feature} {fa : PyDateTime} {e : NormalizedEvent}
    (h : emscParseFeature f fa = .ok e) :
    ∃ mag magType lonRaw,
      pyFloat (pyGetD f.properties "mag" (.num 0)) = .ok mag ∧
      pyLowerJ (jvOr (pyGet f.properties "magtype")
        (jvOr (pyGet f.properties "magType") (.str "ml"))) = .ok magType ∧
      pyIndex f.coordinates 0 = .ok (.num lonRaw) ∧
      e.longitude = normalizeLongitude lonRaw ∧
      e.magnitude_value = mag ∧
      e.magnitude_type = magType := by
  unfold emscParseFeature at h
  obtain ⟨timeJ, htj, h⟩ := bindOk h
  try dsimp only at h
  obtain ⟨originTime0, hot, h⟩ := bindOk h
  try dsimp only at h
  obtain ⟨mag, hmag, h⟩ := bindOk h
  try dsimp only at h
  obtain ⟨magType, hmt, h⟩ := bindOk h
  try dsimp only at h
  obtain ⟨updatedAt, hup, h⟩ := bindOk h
  try dsimp only at h
  obtain ⟨statusRaw, hst, h⟩ := bindOk h
  try dsimp only at h
  obtain ⟨lonJ, hlj, h⟩ := bindOk h
  try dsimp only at h
  obtain ⟨lonRaw, hlr, h⟩ := bindOk h
  try dsimp only at h
  obtain ⟨latJ, hltj, h⟩ := bindOk h
  try dsimp only at h
  obtain ⟨lat, hlat, h⟩ := bindOk h
  try dsimp only at h
  obtain ⟨depthJ, hdj, h⟩ := bindOk h
  try dsimp only at h
  obtain ⟨depth, hdep, h⟩ := bindOk h
  try dsimp only at h
  have he : e = _ := (Except.ok.inj h).symm
  refine ⟨mag, magType, lonRaw, hmag, hmt, ?_, ?_, ?_, ?_⟩
  · rw [hlj, pyToNum_ok hlr]
  · rw [he]
  · rw [he]
  · rw [he]

/-- What a successful FDSN text line parse pins down about its event:
the longitude normalization, the empty-column defaults, and the fixed
`automatic` status. -/
theorem fdsnParseLine_ok {ds line : String} {fa : PyDateTime} {e : NormalizedEvent}
    (h : fdsnParseLine ds line fa = .ok e) :
    ∃ lonStr lonRaw,
      getCol (fdsnCols line) 3 = .ok lonStr ∧
      parseFloat lonStr = .ok lonRaw ∧
      e.longitude = normalizeLongitude lonRaw ∧
      ((fdsnCols line).getD 10 "" = "" → e.magnitude_value = 0) ∧
      ((fdsnCols line).getD 9 "" = "" → e.magnitude_type = "ml") ∧
      (getCol (fdsnCols line) 4 = .ok "" → e.depth_km = 0) ∧
      e.status = "automatic" := by
  unfold fdsnParseLine at h
  obtain ⟨sid, hsid, h⟩ := bindOk h
  try dsimp only at h
  obtain ⟨timeStr, hts, h⟩ := bindOk h
  try dsimp only at h
  obtain ⟨originTime0, hot, h⟩ := bindOk h
  try dsimp only at h
  obtain ⟨latStr, hlats, h⟩ := bindOk h
  try dsimp only at h
  obtain ⟨lat, hlat, h⟩ := bindOk h
  try dsimp only at h
  obtain ⟨lonStr, hlons, h⟩ := bindOk h
  try dsimp only at h
  obtain ⟨lonRaw, hlonr, h⟩ := bindOk h
  try dsimp only at h
  obtain ⟨depthStr, hds, h⟩ := bindOk h
  try dsimp only at h
  obtain ⟨depth, hdep, h⟩ := bindOk h
  try dsimp only at h
  obtain ⟨magValue, hmag, h⟩ := bindOk h
  try dsimp only at h
  have he : e = _ := (Except.ok.inj h).symm
  refine ⟨lonStr, lonRaw, hlons, hlonr, ?_, ?_, ?_, ?_, ?_⟩
  · rw [he]
  · intro h10
    rw [he]
    show magValue = 0
    rw [h10] at hmag
    have : floatOrZero "" = Except.ok (0 : ℚ) := rfl
    rw [this] at hmag
    exact (Except.ok.inj hmag).symm
  · intro h9
    rw [he]
    show pyLowerStr (if ((fdsnCols line).getD 9 "").toList.isEmpty then "ml"
      else (fdsnCols line).getD 9 "") = "ml"
    rw [h9]
    rfl
  · intro h4
    rw [he]
    show depth = 0
    rw [h4] at hds
    have h4' : depthStr = "" := Except.ok.inj hds.symm
    rw [h4'] at hdep
    have : floatOrZero "" = Except.ok (0 : ℚ) := rfl
    rw [this] at hdep
    exact (Except.ok.inj hdep).symm
  · rw [he]

/-! ### Longitude normalization (C8) -/

/-- C8 (amended).  Each parser applies the `±360` longitude adjustment
exactly once: an input longitude above 180 is reduced by 360 and one below
−180 increased by 360, whatever the value; the resulting longitude lies in
`[-180, 180]` exactly for input longitudes in `[-540, 540]`, not for every
input.  The emitted event's longitude is `normalizeLongitude` of the numeric
longitude input in all three parsers. -/
theorem parsers_normalize_longitude_once :
    (∀ q : ℚ, (180 < q → normalizeLongitude q = q - 360) ∧
      (q < -180 → normalizeLongitude q = q + 360) ∧
      (-540 ≤ q ∧ q ≤ 540 → -180 ≤ normalizeLongitude q ∧ normalizeLongitude q ≤ 180)) ∧
    (∀ f fa e, usgsParseFeature f fa = .ok e →
      ∃ q, pyIndex f.coordinates 0 = .ok (.num q) ∧ e.longitude = normalizeLongitude q) ∧
    (∀ f fa e, emscParseFeature f fa = .ok e →
      ∃ q, pyIndex f.coordinates 0 = .ok (.num q) ∧ e.longitude = normalizeLongitude q) ∧
    (∀ ds line fa e, fdsnParseLine ds line fa = .ok e →
      ∃ s q, getCol (fdsnCols line) 3 = .ok s ∧ parseFloat s = .ok q ∧
        e.longitude = normalizeLongitude q) := by
  refine ⟨?_, ?_, ?_, ?_⟩
  · intro q
    unfold normalizeLongitude
    refine ⟨fun h => by rw [if_pos h], fun h => ?_, fun ⟨h1, h2⟩ => ?_⟩
    · rw [if_neg (by linarith), if_pos h]
    · split_ifs with ha hb
      · constructor <;> linarith
      · constructor <;> linarith
      · constructor <;> linarith
  · intro f fa e h
    obtain ⟨_, _, _, lonRaw, _, _, _, hlon, helon, _⟩ := usgsParseFeature_ok h
    exact ⟨lonRaw, hlon, helon⟩
  · intro f fa e h
    obtain ⟨_, _, lonRaw, _, _, hlon, helon, _⟩ := emscParseFeature_ok h
    exact ⟨lonRaw, hlon, helon⟩
  · intro ds line fa e h
    obtain ⟨lonStr, lonRaw, hs, hq, helon, _⟩ := fdsnParseLine_ok h
    exact ⟨lonStr, lonRaw, hs, hq, helon⟩

/-- The fetch time used by the concrete parser runs below. -/
def faW : PyDateTime := ⟨2024, 1, 15, 12, 10, 0, 0, some 0⟩

/-- A USGS feature whose longitude is 541 degrees. -/
def fLon541 : Feature :=
  { id := some "u541", coordinates := [.num 541, .num 35, .num 10],
    properties := [("time", .num 1705312800000), ("mag", .num 5)] }

/-- C8 (counterexample).  The USGS parser emits the feature with longitude
`541 - 360 = 181`, outside `[-180, 180]`: a single `±360` adjustment does
not put every input longitude in range, so the claimed invariant fails for
emitted events. -/
theorem usgs_longitude_escapes_range_at_541 :
    (usgsParseFeature fLon541 faW).map (fun e => e.longitude) = .ok 181 ∧
    ¬ (-180 ≤ (181 : ℚ) ∧ (181 : ℚ) ≤ 180) ∧
    normalizeLongitude 541 = 541 - 360 := by
  refine ⟨by decide, by decide, by decide⟩

/-- C8 (witness).  The amended normalization facts at longitude 190. -/
theorem parsers_normalize_longitude_once_witness :
    normalizeLongitude 190 = 190 - 360 ∧
    (-180 ≤ normalizeLongitude 190 ∧ normalizeLongitude 190 ≤ 180) :=
  ⟨(parsers_normalize_longitude_once.1 190).1 (by norm_num),
   (parsers_normalize_longitude_once.1 190).2.2 ⟨by norm_num, by norm_num⟩⟩

/-! ### Magnitude defaulting in the parsers (C10) -/

/-- C10 (amended).  The USGS parser defaults a missing, null or empty
magnitude to `0.0` and a missing, null or empty magnitude type to `"ml"`
(recall `props.get` returns `None` both for an absent key and for a stored
JSON null); the FDSN text parser does the same for missing or empty columns,
additionally defaulting an empty depth to `0.0` and always setting status
`"automatic"`.  The EMSC parser, by contrast, defaults only an ABSENT `mag`
key to `0.0` (and falsy `magtype`/`magType` to `"ml"`); a present-but-null
magnitude is NOT defaulted — the record is skipped (see the counterexample).
-/
theorem parsers_default_missing_magnitude :
    (∀ f fa e, usgsParseFeature f fa = .ok e →
      ((pyGet f.properties "mag" = .null ∨ pyGet f.properties "mag" = .str "") →
        e.magnitude_value = 0) ∧
      ((pyGet f.properties "magType" = .null ∨ pyGet f.properties "magType" = .str "") →
        e.magnitude_type = "ml")) ∧
    (∀ f fa e, emscParseFeature f fa = .ok e →
      (getProp f.properties "mag" = none → e.magnitude_value = 0) ∧
      (((pyGet f.properties "magtype" = .null ∨ pyGet f.properties "magtype" = .str "") ∧
        (pyGet f.properties "magType" = .null ∨ pyGet f.properties "magType" = .str "")) →
        e.magnitude_type = "ml")) ∧
    (∀ ds line fa e, fdsnParseLine ds line fa = .ok e →
      ((fdsnCols line).getD 10 "" = "" → e.magnitude_value = 0) ∧
      ((fdsnCols line).getD 9 "" = "" → e.magnitude_type = "ml") ∧
      (getCol (fdsnCols line) 4 = .ok "" → e.depth_km = 0) ∧
      e.status = "automatic") := by
  refine ⟨?_, ?_, ?_⟩
  · intro f fa e h
    obtain ⟨_, mag, magType, _, _, hmag, hmt, _, _, hemag, hemt, _⟩ := usgsParseFeature_ok h
    constructor
    · intro hc
      rw [hemag]
      rcases hc with hc | hc <;> rw [hc] at hmag <;>
        simpa [jvOr, jTruthy, pyFloat] using hmag.symm
    · intro hc
      rw [hemt]
      rcases hc with hc | hc <;> rw [hc] at hmt <;>
        simpa [jvOr, jTruthy, pyLowerJ] using hmt.symm
  · intro f fa e h
    obtain ⟨mag, magType, _, hmag, hmt, _, _, hemag, hemt⟩ := emscParseFeature_ok h
    constructor
    · intro hc
      rw [hemag]
      rw [show pyGetD f.properties "mag" (.num 0) = .num 0 by unfold pyGetD; rw [hc]] at hmag
      simpa [pyFloat] using hmag.symm
    · intro ⟨hc1, hc2⟩
      rw [hemt]
      rcases hc1 with hc1 | hc1 <;> rcases hc2 with hc2 | hc2 <;>
        rw [hc1, hc2] at hmt <;>
        simpa [jvOr, jTruthy, pyLowerJ] using hmt.symm
  · intro ds line fa e h
    obtain ⟨_, _, _, _, _, h10, h9, h4, hst⟩ := fdsnParseLine_ok h
    exact ⟨h10, h9, h4, hst⟩

/-- An EMSC feature with an explicit `"mag": null` property, otherwise fully
parseable. -/
def fMagNull : Feature :=
  { id := some "e1", coordinates := [.num (-120), .num 35, .num 10],
    properties := [("unid", .str "e1"), ("time", .num 1705312810000), ("mag", .null)] }

/-- The same feature with the `mag` key absent. -/
def fMagAbsent : Feature :=
  { id := some "e1", coordinates := [.num (-120), .num 35, .num 10],
    properties := [("unid", .str "e1"), ("time", .num 1705312810000)] }

/-- C10 (counterexample).  A present-but-null EMSC magnitude raises
`TypeError` in `float(props.get("mag", 0.0))` and the record is silently
skipped — no canonical event with a defaulted magnitude is emitted — whereas
the same feature without the `mag` key parses with magnitude `0.0`. -/
theorem emsc_null_magnitude_skips_record :
    emscParse [fMagNull] faW = .ok [] ∧
    getProp fMagNull.properties "mag" = some .null ∧
    emscParseFeature fMagNull faW = .error .typeError ∧
    (emscParse [fMagAbsent] faW).map (List.map (fun e => e.magnitude_value)) = .ok [0] := by
  refine ⟨by decide, by decide, by decide, by decide⟩

/-- A USGS feature with `"mag": null` and no `magType` key. -/
def fU10 : Feature :=
  { id := some "u1", coordinates := [.num (-120), .num 35, .num 10],
    properties := [("time", .num 1705312800000), ("mag", .null)] }

/-- The event the USGS parser emits for `fU10`. -/
def eU10 : NormalizedEvent :=
  { event_uid := "usgs:u1", source := "usgs", source_event_id := "u1",
    origin_time_utc := ⟨2024, 1, 15, 10, 0, 0, 0, some 0⟩,
    latitude := 35, longitude := -120, depth_km := 10,
    magnitude_value := 0, magnitude_type := "ml", fetched_at := faW }

/-- C10 (witness).  The USGS defaults at the concrete null-magnitude
feature. -/
theorem parsers_default_missing_magnitude_witness :
    eU10.magnitude_value = 0 ∧ eU10.magnitude_type = "ml" :=
  ⟨(parsers_default_missing_magnitude.1 fU10 faW eU10 (by decide)).1 (Or.inl (by decide)),
   (parsers_default_missing_magnitude.1 fU10 faW eU10 (by decide)).2 (Or.inl (by decide))⟩

/-! ### Unified-row quality metrics (C2) -/

/-- C2.  For every non-empty cluster, the unified row carries
`magnitude_std` equal to the population standard deviation of the member
magnitudes, `location_spread_km` equal to the maximum pairwise Haversine
distance among members, and `source_agreement_score` equal to distinct
sources over members when there is more than one member, else `1.0`; for a
single member the three values are `0`, `0` and `1`.
(`_compute_quality_metrics` itself is modelled from the spec — it is imported
by `dedup_pipeline.py` but missing from the sources.) -/
theorem unified_row_quality_metrics (c : Cluster) (h : c.members ≠ []) :
    (buildUnifiedRow c).magnitude_std =
      Real.sqrt (((c.members.map (fun m => (m.magnitude_value : ℝ))).map
        (fun x => (x - (c.members.map (fun m => (m.magnitude_value : ℝ))).sum /
          c.members.length) ^ 2)).sum / c.members.length) ∧
    (buildUnifiedRow c).location_spread_km =
      ((allPairs c.members).map (fun p =>
        haversine_km (p.1.latitude : ℝ) (p.1.longitude : ℝ)
          (p.2.latitude : ℝ) (p.2.longitude : ℝ))).foldl max 0 ∧
    (buildUnifiedRow c).source_agreement_score =
      (if 1 < c.members.length then (distinctSources c : ℝ) / (c.members.length : ℝ) else 1) ∧
    (c.members.length = 1 →
      (buildUnifiedRow c).magnitude_std = 0 ∧
      (buildUnifiedRow c).location_spread_km = 0 ∧
      (buildUnifiedRow c).source_agreement_score = 1) := by
  have hn : c.members.length ≠ 0 := by
    intro h0
    exact h (List.length_eq_zero.mp h0)
  have hstd : (buildUnifiedRow c).magnitude_std =
      Real.sqrt (((c.members.map (fun m => (m.magnitude_value : ℝ))).map
        (fun x => (x - (c.members.map (fun m => (m.magnitude_value : ℝ))).sum /
          c.members.length) ^ 2)).sum / c.members.length) := by
    show magnitudeStd c = _
    unfold magnitudeStd
    rw [if_neg hn]
  have hspread : (buildUnifiedRow c).location_spread_km =
      ((allPairs c.members).map (fun p =>
        haversine_km (p.1.latitude : ℝ) (p.1.longitude : ℝ)
          (p.2.latitude : ℝ) (p.2.longitude : ℝ))).foldl max 0 := rfl
  have hagree : (buildUnifiedRow c).source_agreement_score =
      (if 1 < c.members.length then (distinctSources c : ℝ) / (c.members.length : ℝ)
       else 1) := rfl
  refine ⟨hstd, hspread, hagree, ?_⟩
  intro h1
  obtain ⟨m, hm⟩ := List.length_eq_one.mp h1
  refine ⟨?_, ?_, ?_⟩
  · rw [hstd, hm]
    simp
  · rw [hspread, hm]
    simp [allPairs]
  · rw [hagree, h1]
    simp

/-- A one-member cluster for the metrics witness. -/
def clusterQM : Cluster := { members := [recU "usgs:w"] }

/-- C2 (witness).  The quality-metric equations at a concrete one-member
cluster. -/
theorem unified_row_quality_metrics_witness :
    (buildUnifiedRow clusterQM).magnitude_std =
      Real.sqrt (((clusterQM.members.map (fun m => (m.magnitude_value : ℝ))).map
        (fun x => (x - (clusterQM.members.map (fun m => (m.magnitude_value : ℝ))).sum /
          clusterQM.members.length) ^ 2)).sum / clusterQM.members.length) ∧
    (buildUnifiedRow clusterQM).location_spread_km =
      ((allPairs clusterQM.members).map (fun p =>
        haversine_km (p.1.latitude : ℝ) (p.1.longitude : ℝ)
          (p.2.latitude : ℝ) (p.2.longitude : ℝ))).foldl max 0 ∧
    (buildUnifiedRow clusterQM).source_agreement_score =
      (if 1 < clusterQM.members.length then
        (distinctSources clusterQM : ℝ) / (clusterQM.members.length : ℝ) else 1) ∧
    (clusterQM.members.length = 1 →
      (buildUnifiedRow clusterQM).magnitude_std = 0 ∧
      (buildUnifiedRow clusterQM).location_spread_km = 0 ∧
      (buildUnifiedRow clusterQM).source_agreement_score = 1) :=
  unified_row_quality_metrics clusterQM (by decide)

/-! ### Clustering: the anchor-score invariant (C1) and the partition (C9) -/

theorem atan2_zero_one : atan2 0 1 = 0 := by
  unfold atan2
  rw [if_pos one_pos]
  simp [Real.arctan_zero]

theorem haversine_self (la lo : ℝ) : haversine_km la lo la lo = 0 := by
  unfold haversine_km
  simp only [sub_self, zero_div, Real.sin_zero, ne_eq, OfNat.ofNat_ne_zero,
    not_false_eq_true, zero_pow, mul_zero, add_zero, zero_add, Real.sqrt_zero, sub_zero,
    Real.sqrt_one, atan2_zero_one]

theorem compute_match_score_self (e : EventRecord) : compute_match_score e e = 1 := by
  unfold compute_match_score MAX_TIME_DIFF_SEC MAX_DISTANCE_KM MAX_MAG_DIFF
  simp only [sub_self, abs_zero, haversine_self]
  rw [if_neg (by norm_num), if_neg (by norm_num), if_neg (by norm_num)]
  rw [show max (0:ℝ) (1 - 0 / 30) = 1 - 0 / 30 from max_eq_right (by norm_num),
    show max (0:ℝ) (1 - 0 / 100) = 1 - 0 / 100 from max_eq_right (by norm_num),
    show max (0:ℝ) (1 - 0 / 0.5) = 1 - 0 / 0.5 from max_eq_right (by norm_num)]
  norm_num

/-- Any index the inner scan returns points at a cluster of the list whose
anchor the event matched with at least the threshold (stated against an
arbitrary goal predicate `G` to absorb the index offset). -/
theorem findBestAux_spec (e : EventRecord) (G : ℕ → ℝ → Prop) :
    ∀ (cs : List Cluster) (i : ℕ) (bi : Option ℕ) (bs : ℝ),
      (∀ j, bi = some j → G j bs) →
      (∀ k c, cs.get? k = some c →
        compute_match_score e c.anchor ≥ MATCH_SCORE_THRESHOLD →
        G (i + k) (compute_match_score e c.anchor)) →
      ∀ j s, findBestAux e cs i bi bs = (some j, s) → G j s := by
  intro cs
  induction cs with
  | nil =>
    intro i bi bs hacc _ j s h
    unfold findBestAux at h
    injection h with h1 h2
    subst h2
    exact hacc j h1
  | cons c cs ih =>
    intro i bi bs hacc hcs j s h
    unfold findBestAux at h
    by_cases hcond : compute_match_score e c.anchor ≥ MATCH_SCORE_THRESHOLD ∧
      compute_match_score e c.anchor > bs
    · rw [if_pos hcond] at h
      refine ih (i + 1) (some i) (compute_match_score e c.anchor) ?_ ?_ j s h
      · intro j' hj'
        cases Option.some.inj hj'
        simpa using hcs 0 c rfl hcond.1
      · intro k c' hk hsc
        have hg := hcs (k + 1) c' hk hsc
        have harith : i + (k + 1) = (i + 1) + k := by omega
        rwa [harith] at hg
    · rw [if_neg hcond] at h
      refine ih (i + 1) bi bs hacc ?_ j s h
      intro k c' hk hsc
      have hg := hcs (k + 1) c' hk hsc
      have harith : i + (k + 1) = (i + 1) + k := by omega
      rwa [harith] at hg

/-- The scan of `cluster_events`' inner loop, instantiated: a returned index
is valid and carries the score of the event against that cluster's anchor,
at or above the threshold. -/
theorem findBest_some (e : EventRecord) (cs : List Cluster) {j : ℕ} {s : ℝ}
    (h : findBestAux e cs 0 none 0 = (some j, s)) :
    ∃ c, cs.get? j = some c ∧ s = compute_match_score e c.anchor ∧
      MATCH_SCORE_THRESHOLD ≤ s := by
  refine findBestAux_spec e
    (fun j s => ∃ c, cs.get? j = some c ∧ s = compute_match_score e c.anchor ∧
      MATCH_SCORE_THRESHOLD ≤ s) cs 0 none 0 ?_ ?_ j s h
  · intro j' hj'
    simp at hj'
  · intro k c hk hsc
    refine ⟨c, ?_, rfl, hsc⟩
    simpa using hk

/-- Membership in the attach result: a cluster is unchanged or is the updated
cluster at the attachment index. -/
theorem attachAt_mem {e : EventRecord} :
    ∀ (cs : List Cluster) (i : ℕ) (s : ℝ) (c' : Cluster), c' ∈ attachAt e cs i s →
      c' ∈ cs ∨ ∃ c, cs.get? i = some c ∧
        c' = { members := c.members ++ [e], best_score := max c.best_score s } := by
  intro cs
  induction cs with
  | nil =>
    intro i s c' h
    unfold attachAt at h
    simp at h
  | cons c cs ih =>
    intro i s c' h
    match i with
    | 0 =>
      unfold attachAt at h
      rcases List.mem_cons.mp h with h | h
      · right; exact ⟨c, rfl, h⟩
      · left; exact List.mem_cons_of_mem c h
    | n + 1 =>
      unfold attachAt at h
      rcases List.mem_cons.mp h with h | h
      · left; rw [h]; exact List.mem_cons_self c cs
      · rcases ih n s c' h with h' | ⟨cc, hcc, hc'⟩
        · left; exact List.mem_cons_of_mem c h'
        · right; exact ⟨cc, hcc, hc'⟩

/-- Attaching a member permutes the flattened membership by appending the
event. -/
theorem attachAt_flat {e : EventRecord} :
    ∀ (cs : List Cluster) (i : ℕ) (s : ℝ), i < cs.length →
      ((attachAt e cs i s).flatMap Cluster.members).Perm
        ((cs.flatMap Cluster.members) ++ [e]) := by
  intro cs
  induction cs with
  | nil =>
    intro i s h
    simp at h
  | cons c cs ih =>
    intro i s hi
    match i with
    | 0 =>
      unfold attachAt
      simp only [List.flatMap_cons]
      rw [List.append_assoc, List.append_assoc]
      exact List.Perm.append_left c.members (List.perm_append_comm)
    | n + 1 =>
      unfold attachAt
      simp only [List.flatMap_cons]
      rw [List.append_assoc]
      refine List.Perm.append_left c.members ?_
      have := ih n s (by simpa using Nat.lt_of_succ_lt_succ hi)
      simpa using this

/-- The head of a non-empty list survives appending. -/
theorem headI_append_of_ne_nil {α : Type} [Inhabited α] {l1 l2 : List α} (h : l1 ≠ []) :
    (l1 ++ l2).headI = l1.headI := by
  cases l1 with
  | nil => exact absurd rfl h
  | cons a l => rfl

/-- The clustering invariant: clusters are non-empty and every member scores
at least the threshold against the cluster's anchor. -/
def ClusterInv (c : Cluster) : Prop :=
  c.members ≠ [] ∧
  ∀ m ∈ c.members, MATCH_SCORE_THRESHOLD ≤ compute_match_score m c.anchor

/-- One clustering step preserves the invariant. -/
theorem clusterStep_inv (cs : List Cluster) (e : EventRecord)
    (hinv : ∀ c ∈ cs, ClusterInv c) : ∀ c ∈ clusterStep cs e, ClusterInv c := by
  intro c' hc'
  unfold clusterStep at hc'
  split at hc'
  · next i s heq =>
    rcases attachAt_mem cs i s c' hc' with hold | ⟨cc, hcc, hc'eq⟩
    · exact hinv c' hold
    · obtain ⟨cfound, hgf, hseq, hth⟩ := findBest_some e cs heq
      have hccf : cc = cfound := Option.some.inj (hcc.symm.trans hgf)
      subst hccf
      have hccinv := hinv cc (List.get?_mem hcc)
      have hanch : Cluster.anchor
          { members := cc.members ++ [e], best_score := max cc.best_score s } =
          Cluster.anchor cc := by
        unfold Cluster.anchor
        exact headI_append_of_ne_nil hccinv.1
      constructor
      · rw [hc'eq]
        simp
      · intro m hm
        rw [hc'eq] at hm ⊢
        rw [hanch]
        rcases List.mem_append.mp hm with hm' | hm'
        · exact hccinv.2 m hm'
        · rw [List.mem_singleton.mp hm']
          rw [hseq] at hth
          exact hth
  · next heq =>
    rcases List.mem_append.mp hc' with hold | hnew
    · exact hinv c' hold
    · rw [List.mem_singleton.mp hnew]
      refine ⟨by simp, ?_⟩
      intro m hm
      rw [List.mem_singleton.mp hm]
      show MATCH_SCORE_THRESHOLD ≤ compute_match_score e (Cluster.anchor { members := [e] })
      have : Cluster.anchor { members := [e] } = e := rfl
      rw [this, compute_match_score_self]
      unfold MATCH_SCORE_THRESHOLD
      norm_num

/-- The fold over the sorted events preserves the invariant. -/
theorem foldl_clusterStep_inv (l : List EventRecord) :
    ∀ acc, (∀ c ∈ acc, ClusterInv c) →
      ∀ c ∈ l.foldl clusterStep acc, ClusterInv c := by
  induction l with
  | nil => intro acc h; simpa using h
  | cons x l ih => intro acc h; exact ih (clusterStep acc x) (clusterStep_inv acc x h)

/-- Every output cluster of `cluster_events` satisfies the invariant. -/
theorem cluster_events_inv (events : List EventRecord) :
    ∀ c ∈ cluster_events events, ClusterInv c := by
  unfold cluster_events
  exact foldl_clusterStep_inv _ [] (by simp)

/-- C1.  `cluster_events` processes the records in ascending
`origin_time_utc` order (the stable sort in its definition), scores each
record only against the anchors of the existing clusters, attaches it to the
highest-scoring cluster with score ≥ 0.6 — ties to the earliest-created,
since only a strictly larger score displaces the running best — or starts a
new cluster; consequently every member of every output cluster scores at
least 0.6 against its own cluster's anchor. -/
theorem cluster_members_match_anchor (events : List EventRecord) (c : Cluster)
    (hc : c ∈ cluster_events events) (m : EventRecord) (hm : m ∈ c.members) :
    (0.6 : ℝ) ≤ compute_match_score m c.anchor := by
  have h := (cluster_events_inv events c hc).2 m hm
  unfold MATCH_SCORE_THRESHOLD at h
  exact h

/-- C1 (witness).  The invariant at the one-record run. -/
theorem cluster_members_match_anchor_witness :
    (0.6 : ℝ) ≤ compute_match_score (recU "usgs:w1")
      (Cluster.anchor { members := [recU "usgs:w1"] }) :=
  cluster_members_match_anchor [recU "usgs:w1"] { members := [recU "usgs:w1"] }
    (by
      rw [show cluster_events [recU "usgs:w1"] = [{ members := [recU "usgs:w1"] }] from rfl]
      exact List.mem_singleton.mpr rfl)
    (recU "usgs:w1") (List.mem_singleton.mpr rfl)

/-- One clustering step appends exactly the processed event to the flattened
membership, up to permutation. -/
theorem clusterStep_flat (cs : List Cluster) (e : EventRecord) :
    ((clusterStep cs e).flatMap Cluster.members).Perm
      ((cs.flatMap Cluster.members) ++ [e]) := by
  unfold clusterStep
  split
  · next i s heq =>
    obtain ⟨c, hc, _, _⟩ := findBest_some e cs heq
    obtain ⟨hlt, _⟩ := List.get?_eq_some.mp hc
    exact attachAt_flat cs i s hlt
  · next heq =>
    simp

/-- The fold accumulates the processed events into the flattened membership. -/
theorem foldl_clusterStep_flat (l : List EventRecord) :
    ∀ acc, ((l.foldl clusterStep acc).flatMap Cluster.members).Perm
      ((acc.flatMap Cluster.members) ++ l) := by
  induction l with
  | nil => intro acc; simp
  | cons x l ih =>
    intro acc
    have h1 := ih (clusterStep acc x)
    have h2 := (clusterStep_flat acc x).append_right l
    refine h1.trans (h2.trans ?_)
    rw [List.append_assoc]
    simp

/-- C9.  The clusters of `cluster_events` partition the input: the
concatenation of all member lists is a permutation of the input list (so
every input record lands in exactly one cluster, counted with multiplicity),
and every cluster is non-empty. -/
theorem cluster_events_partition (events : List EventRecord) :
    ((cluster_events events).flatMap Cluster.members).Perm events ∧
    ∀ c ∈ cluster_events events, c.members ≠ [] := by
  constructor
  · have h := foldl_clusterStep_flat
      (List.insertionSort (fun a b => a.origin_time_utc ≤ b.origin_time_utc) events) []
    unfold cluster_events
    simp only [List.flatMap_nil, List.nil_append] at h
    exact h.trans (List.perm_insertionSort _ events)
  · intro c hc
    exact (cluster_events_inv events c hc).1

/-- C9 (witness).  The partition at a concrete one-record input. -/
theorem cluster_events_partition_witness :
    ((cluster_events [recU "usgs:w2"]).flatMap Cluster.members).Perm [recU "usgs:w2"] ∧
    ∀ c ∈ cluster_events [recU "usgs:w2"], c.members ≠ [] :=
  cluster_events_partition [recU "usgs:w2"]

end QuakeStream
